import Mathlib

/-!
# TM1628 / FD6551 / seven-segment display drivers

A shallow embedding of `drivers/leds/leds-tm1628.c`, `drivers/auxdisplay/fd6551.c`
and `drivers/auxdisplay/sevensegdisp.c`.

Conventions of the embedding:

* C unsigned integers are `Nat`, C `int` return codes are `Int`; a conversion to a
  narrower unsigned type is written out (`u8`, `u16`, `u32`).
* An array reached through a pointer (`s->data`, `buf`, `digit_addrs`) is modelled by
  its read function `Nat → Nat`; a store is `Function.update`.
* The SPI and I2C cores and the mutex are kernel services outside the drivers.  Every
  message handed to a bus is appended to a log, and what the bus (or the lock) answers
  to its k-th call is read from an outcome function that is part of the state.
-/

namespace LedDrv

/-! ## Kernel helpers used by the drivers -/

/-- Error number `EINVAL`. -/
def EINVAL : Int := 22

/-- Error number `EAGAIN`. -/
def EAGAIN : Int := 11

/-- Error number `ENOMEM`. -/
def ENOMEM : Int := 12

/-- Error number `ENOBUFS`. -/
def ENOBUFS : Int := 105

/-- Conversion to `u8`. -/
def u8 (x : Nat) : Nat := x % 2 ^ 8

/-- Conversion of a C `int` to `u8`. -/
def u8_of_int (x : Int) : Nat := (x % 256).toNat

/-- Conversion to `u16`. -/
def u16 (x : Nat) : Nat := x % 2 ^ 16

/-- Conversion to `u32`. -/
def u32 (x : Nat) : Nat := x % 2 ^ 32

/-- Kernel `BIT(nr)`: `1UL << nr`. -/
def BIT (nr : Nat) : Nat := 1 <<< nr

/-- Kernel `GENMASK(h, l)`: the bits `l..h` set. -/
def GENMASK (h l : Nat) : Nat := (2 ^ (h + 1) - 1) - (2 ^ l - 1)

/-- Bitwise complement of an `unsigned long` (64 bits). -/
def not64 (x : Nat) : Nat := 2 ^ 64 - 1 - x % 2 ^ 64

/-- Kernel `__ffs(word)`: index of the least significant set bit (undefined for 0,
where this model answers 0). -/
def __ffs (word : Nat) : Nat :=
  ((List.range 64).find? (fun i => word.testBit i)).getD 0

/-! ## leds-tm1628.c : data model -/

/-- `TM1628_CMD_DISPLAY_MODE`. -/
def TM1628_CMD_DISPLAY_MODE : Nat := 0x0 <<< 6
/-- `TM1628_CMD_DATA_SETTING`. -/
def TM1628_CMD_DATA_SETTING : Nat := 0x1 <<< 6
/-- `TM1628_CMD_DISPLAY_CTRL`. -/
def TM1628_CMD_DISPLAY_CTRL : Nat := 0x2 <<< 6
/-- `TM1628_CMD_ADDRESS_SETTING`. -/
def TM1628_CMD_ADDRESS_SETTING : Nat := 0x3 <<< 6
/-- `TM1628_DATA_SETTING_WRITE_DATA`. -/
def TM1628_DATA_SETTING_WRITE_DATA : Nat := 0x0

/-- `struct tm1628_mode`. -/
structure tm1628_mode where
  grid_mask : Nat
  seg_mask : Nat
  deriving DecidableEq

/-- `struct tm1628_info` (the PWM map is not used by the code modelled here). -/
structure tm1628_info where
  grid_mask : Nat
  seg_mask : Nat
  modes : List tm1628_mode
  default_mode : Int
  default_pwm : Int
  deriving DecidableEq

/-- One SPI message: the byte strings of its transfers, in order. -/
abbrev spi_message := List (List Nat)

/-- `struct spi_device` as the driver sees it: the messages submitted so far and the
status the SPI core returns for the k-th submitted message (0 or a negative errno). -/
structure spi_device where
  sent : List spi_message
  outcome : Nat → Int

/-- `struct tm1628` (the members the modelled functions touch). -/
structure tm1628 where
  spi : spi_device
  info : tm1628_info
  mode_index : Int
  pwm_index : Int
  data : Nat → Nat
  data_len : Nat

/-- `struct tm1628_led`. -/
structure tm1628_led where
  ctrl : tm1628
  grid : Nat
  seg : Nat

/-! ## leds-tm1628.c : SPI commands -/

/-- `spi_sync_transfer(spi, xfers, n)`: submit one message made of the given transfers. -/
def spi_sync_transfer (spi : spi_device) (xfers : spi_message) : spi_device × Int :=
  ({ spi with sent := spi.sent ++ [xfers] }, spi.outcome spi.sent.length)

/-- `spi_write(spi, buf, len)`: one message with a single transfer. -/
def spi_write (spi : spi_device) (buf : List Nat) : spi_device × Int :=
  spi_sync_transfer spi [buf]

/-- `tm1628_write_data(spi, data, len)`; `data` is the read function of the pointer
passed in. -/
def tm1628_write_data (spi : spi_device) (data : Nat → Nat) (len : Nat) : spi_device × Int :=
  let cmd := u8 (TM1628_CMD_DATA_SETTING ||| TM1628_DATA_SETTING_WRITE_DATA)
  let xfers : spi_message := [[cmd], (List.range len).map data]
  if len > 14 then (spi, -EINVAL)
  else spi_sync_transfer spi xfers

/-- `tm1628_set_address(spi, addr)`; the parameter is a `u8`. -/
def tm1628_set_address (spi : spi_device) (addr : Nat) : spi_device × Int :=
  let addr := u8 addr
  let cmd := TM1628_CMD_ADDRESS_SETTING
  let cmd := u8 (cmd ||| (addr &&& GENMASK 3 0))
  spi_write spi [cmd]

/-! ## leds-tm1628.c : grid/segment addressing -/

/-- `tm1628_get_led_offset(s, grid, seg, &offset, &bit)`: the return code and, when
the out-parameters are written (exactly when the code is 0), the pair
`(*poffset, *pbit)`.  A caller that passes `pbit == NULL` ignores the second
component. -/
def tm1628_get_led_offset (grid seg : Nat) : Int × Option (Nat × Nat) :=
  if grid = 0 ∨ grid > 7 ∨ seg = 0 ∨ seg > 16 then (-EINVAL, none)
  else
    let offset := (grid - 1) * 2
    let bit := seg - 1
    if bit ≥ 8 then (0, some (offset + 1, bit - 8))
    else (0, some (offset, bit))

/-- `tm1628_get_led(s, grid, seg, &on)`: return code and the value stored in `*on`. -/
def tm1628_get_led (s : tm1628) (grid seg : Nat) : Int × Option Bool :=
  match tm1628_get_led_offset grid seg with
  | (_, some (offset, bit)) => (0, some (decide (s.data offset &&& BIT bit ≠ 0)))
  | (ret, none) => (ret, none)

/-- `tm1628_set_led(s, grid, seg, on)`. -/
def tm1628_set_led (s : tm1628) (grid seg : Nat) (on_ : Bool) : tm1628 × Int :=
  match tm1628_get_led_offset grid seg with
  | (_, some (offset, bit)) =>
    if on_ then
      ({ s with data := Function.update s.data offset (u8 (s.data offset ||| BIT bit)) }, 0)
    else
      ({ s with data := Function.update s.data offset (u8 (s.data offset &&& not64 (BIT bit))) }, 0)
  | (ret, none) => (s, ret)

/-- `tm1628_led_set_brightness(led_cdev, brightness)`; `brightness != LED_OFF` is the
boolean `on_`.  The controller state reached through `led->ctrl` is returned. -/
def tm1628_led_set_brightness (led : tm1628_led) (on_ : Bool) : tm1628 × Int :=
  let s := led.ctrl
  match tm1628_set_led s led.grid led.seg on_ with
  | (s, ret) =>
    if ret ≠ 0 then (s, ret)
    else
      match tm1628_get_led_offset led.grid led.seg with
      | (ret, none) => (s, ret)
      | (_, some (offset, _)) =>
        match tm1628_set_address s.spi offset with
        | (spi, ret) =>
          if ret ≠ 0 then ({ s with spi := spi }, ret)
          else
            match tm1628_write_data spi (fun i => s.data (offset + i)) 1 with
            | (spi, ret) => ({ s with spi := spi }, ret)

/-! ## leds-tm1628.c : mode tables and mode selection -/

/-- The `while (grid_mask)` loop of `tm1628_grid_popcount` on the pair
`(grid_mask, n)`, run for at most the given number of iterations.  `grid_mask` is a
`u8`, so `grid_mask &= ~BIT(i)` is truncated to 8 bits. -/
def tm1628_grid_popcount_loop : Nat → Nat × Nat → Nat × Nat
  | 0, st => st
  | k + 1, (grid_mask, n) =>
    if grid_mask ≠ 0 then
      let i := __ffs grid_mask
      tm1628_grid_popcount_loop k (u8 (grid_mask &&& not64 (BIT i)), n + 1)
    else (grid_mask, n)

/-- `tm1628_grid_popcount(grid_mask)`: the parameter is a `u8`, so the argument is
truncated on entry; eight iterations exhaust every `u8`
(`tm1628_grid_popcount_loop_exits`). -/
def tm1628_grid_popcount (grid_mask : Nat) : Nat :=
  (tm1628_grid_popcount_loop 8 (u8 grid_mask, 0)).2

/-- The `for (i = 0; i < 4; i++)` loop of `tm1628_spi_probe`, with `n` iterations
left at index `i`: the value `s->mode_index` has after the loop, or `none` when
`modes[i]` is read past the end of the table. -/
def tm1628_mode_scan (modes : List tm1628_mode) (grids : Nat) : Nat → Nat → Option Int
  | 0, _ => some (-1)
  | n + 1, i =>
    match modes[i]? with
    | none => none
    | some m =>
      if tm1628_grid_popcount m.grid_mask ≠ grids then tm1628_mode_scan modes grids n (i + 1)
      else some (i : Int)

/-- Mode selection of `tm1628_spi_probe` (from `s->mode_index = -1` to the
`#grids out of range` exit): the resulting `s->mode_index` and the status, which is
`-EINVAL` when probe returns there and 0 when probe goes on. -/
def tm1628_spi_probe_mode (info : tm1628_info) (grids : Nat) : Option (Int × Int) :=
  match tm1628_mode_scan info.modes grids 4 0 with
  | none => none
  | some mode_index =>
    if mode_index = -1 then some (mode_index, -EINVAL)
    else some (mode_index, 0)

/-- Table `tm1628_modes`. -/
def tm1628_modes : List tm1628_mode :=
  [ ⟨GENMASK 4 1, GENMASK 14 12 ||| GENMASK 10 1⟩,
    ⟨GENMASK 5 1, GENMASK 13 12 ||| GENMASK 10 1⟩,
    ⟨GENMASK 6 1, BIT 12 ||| GENMASK 10 1⟩,
    ⟨GENMASK 7 1, GENMASK 10 1⟩ ]

/-- Descriptor `tm1628_info`. -/
def tm1628_info_tm1628 : tm1628_info :=
  ⟨GENMASK 7 1, GENMASK 14 12 ||| GENMASK 10 1, tm1628_modes, 3, 0⟩

/-- Descriptor `fd628_info`. -/
def fd628_info : tm1628_info :=
  ⟨GENMASK 7 1, GENMASK 14 12 ||| GENMASK 10 1, tm1628_modes, 3, 0⟩

/-- Table `ht16515_modes`. -/
def ht16515_modes : List tm1628_mode :=
  [ ⟨GENMASK 4 1, GENMASK 24 1⟩,
    ⟨GENMASK 5 1, GENMASK 23 1⟩,
    ⟨GENMASK 6 1, GENMASK 22 1⟩,
    ⟨GENMASK 7 1, GENMASK 21 1⟩,
    ⟨GENMASK 8 1, GENMASK 20 1⟩,
    ⟨GENMASK 9 1, GENMASK 19 1⟩,
    ⟨GENMASK 10 1, GENMASK 18 1⟩,
    ⟨GENMASK 11 1, GENMASK 17 1⟩,
    ⟨GENMASK 12 1, GENMASK 6 1⟩,
    ⟨GENMASK 12 1, GENMASK 6 1⟩,
    ⟨GENMASK 12 1, GENMASK 6 1⟩,
    ⟨GENMASK 12 1, GENMASK 6 1⟩,
    ⟨GENMASK 12 1, GENMASK 6 1⟩,
    ⟨GENMASK 12 1, GENMASK 6 1⟩,
    ⟨GENMASK 12 1, GENMASK 6 1⟩,
    ⟨GENMASK 12 1, GENMASK 6 1⟩ ]

/-- Descriptor `ht16515_info`. -/
def ht16515_info : tm1628_info :=
  ⟨GENMASK 12 1, GENMASK 24 1, ht16515_modes, 8, 0⟩

/-- Table `aip1618_modes`. -/
def aip1618_modes : List tm1628_mode :=
  [ ⟨GENMASK 4 1, GENMASK 14 12 ||| GENMASK 5 1⟩,
    ⟨GENMASK 5 1, GENMASK 13 12 ||| GENMASK 5 1⟩,
    ⟨GENMASK 6 1, BIT 12 ||| GENMASK 5 1⟩,
    ⟨GENMASK 7 1, GENMASK 5 1⟩ ]

/-- Descriptor `aip1618_info`. -/
def aip1618_info : tm1628_info :=
  ⟨GENMASK 7 1, GENMASK 14 12 ||| GENMASK 5 1, aip1618_modes, 3, 0⟩

/-- Number of set bits of a mask below 2^32, the popcount the specification speaks
of. -/
def hweight (mask : Nat) : Nat :=
  (List.range 32).countP (fun i => mask.testBit i)

/-- Indices of the table entries whose `grid_mask` has exactly `grids` set bits. -/
def matching_modes (modes : List tm1628_mode) (grids : Nat) : List Nat :=
  (List.range modes.length).filter
    (fun i => (modes[i]?.map (fun m => hweight m.grid_mask)) = some grids)

/-! ## leds-tm1628.c : display commands, bitmap length and probe -/

/-- `TM1628_DISPLAY_MODE_MODE_MASK`. -/
def TM1628_DISPLAY_MODE_MODE_MASK : Nat := GENMASK 1 0
/-- `TM1628_DISPLAY_CTRL_PW_MASK`. -/
def TM1628_DISPLAY_CTRL_PW_MASK : Nat := GENMASK 2 0
/-- `TM1628_DISPLAY_CTRL_DISPLAY_ON`. -/
def TM1628_DISPLAY_CTRL_DISPLAY_ON : Nat := BIT 3

/-- `tm1628_set_display_mode(spi, grid_mode)`; the parameter is a `u8`. -/
def tm1628_set_display_mode (spi : spi_device) (grid_mode : Nat) : spi_device × Int :=
  let grid_mode := u8 grid_mode
  let cmd := TM1628_CMD_DISPLAY_MODE
  if grid_mode &&& not64 TM1628_DISPLAY_MODE_MODE_MASK ≠ 0 then (spi, -EINVAL)
  else
    let cmd := u8 (cmd ||| grid_mode)
    spi_write spi [cmd]

/-- `tm1628_set_display_ctrl(spi, on, pwm_index)`; `pwm_index` is a `u8`. -/
def tm1628_set_display_ctrl (spi : spi_device) (on_ : Bool) (pwm_index : Nat) :
    spi_device × Int :=
  let pwm_index := u8 pwm_index
  let cmd := TM1628_CMD_DISPLAY_CTRL
  let cmd := if on_ then u8 (cmd ||| TM1628_DISPLAY_CTRL_DISPLAY_ON) else cmd
  if pwm_index &&& not64 TM1628_DISPLAY_CTRL_PW_MASK ≠ 0 then (spi, -EINVAL)
  else
    let cmd := u8 (cmd ||| pwm_index)
    spi_write spi [cmd]

/-- `tm1628_bl_update_status(bldev)` for the backlight of controller `s`, with
`bldev->props.state` and `bldev->props.brightness` given; `fbblank` is the mask
`BL_CORE_FBBLANK` of `include/linux/backlight.h`.  The `int` brightness is converted
to the `u8` parameter. -/
def tm1628_bl_update_status (fbblank : Nat) (s : tm1628) (state : Nat) (brightness : Int) :
    tm1628 × Int :=
  match tm1628_set_display_ctrl s.spi (decide (state &&& fbblank = 0)) (u8_of_int brightness) with
  | (spi, ret) => ({ s with spi := spi }, ret)

/-- Kernel `find_last_bit(addr, size)` on a one-word bitmap: the index of the most
significant set bit below `size`, or `size` when there is none. -/
def find_last_bit (word size : Nat) : Nat :=
  ((List.range size).reverse.find? (fun i => word.testBit i)).getD size

/-- `BITS_PER_TYPE(unsigned long)`. -/
def BITS_PER_LONG : Nat := 64

/-- `BITS_PER_BYTE`. -/
def BITS_PER_BYTE : Nat := 8

/-- Kernel `DIV_ROUND_UP(n, d)`. -/
def DIV_ROUND_UP (n d : Nat) : Nat := (n + d - 1) / d

/-- `tm1628_max_grid(s)`. -/
def tm1628_max_grid (s : tm1628) : Nat :=
  find_last_bit s.info.grid_mask BITS_PER_LONG

/-- `tm1628_max_seg(s)`. -/
def tm1628_max_seg (s : tm1628) : Nat :=
  find_last_bit s.info.seg_mask BITS_PER_LONG

/-- The value `tm1628_spi_probe` stores in `s->data_len`. -/
def tm1628_probe_data_len (s : tm1628) : Nat :=
  DIV_ROUND_UP (tm1628_max_seg s) BITS_PER_BYTE * tm1628_max_grid s

/-- `tm1628_is_valid_grid(s, grid)`; `none` when `modes[s->mode_index]` lies outside
the table. -/
def tm1628_is_valid_grid (s : tm1628) (grid : Nat) : Option Bool :=
  if s.mode_index < 0 then none
  else (s.info.modes[s.mode_index.toNat]?).map (fun m => decide (m.grid_mask &&& BIT grid ≠ 0))

/-- `tm1628_is_valid_seg(s, seg)`; `none` when `modes[s->mode_index]` lies outside
the table. -/
def tm1628_is_valid_seg (s : tm1628) (seg : Nat) : Option Bool :=
  if s.mode_index < 0 then none
  else (s.info.modes[s.mode_index.toNat]?).map (fun m => decide (m.seg_mask &&& BIT seg ≠ 0))

/-- A child node of the controller in the hardware description: the cells of its
`reg` property, the status `fwnode_property_read_u32_array(child, "reg", reg, 2)`
returns when there are fewer than two cells, and the status
`devm_led_classdev_register_ext` returns for this node. -/
structure fwnode_handle where
  reg : List Nat
  reg_err : Int
  register_ret : Int
  deriving DecidableEq

/-- `tm1628_register_led(s, node, grid, seg, led)`: the status; `none` when the mode
table is read outside its bounds.  The fields of `*led` are written only after the
range check. -/
def tm1628_register_led (s : tm1628) (node : fwnode_handle) (grid seg : Nat) : Option Int :=
  match tm1628_is_valid_grid s grid, tm1628_is_valid_seg s seg with
  | some vg, some vs =>
    if ¬ vg ∨ ¬ vs then some (-EINVAL)
    else some node.register_ret
  | _, _ => none

/-- The loop `for (i = 0; i < 4; i++)` of `tm1628_spi_probe` with its loop variable:
the pair `(s->mode_index, i)` after the loop (`n` iterations left at index `i`). -/
def tm1628_mode_loop (modes : List tm1628_mode) (grids : Nat) : Nat → Nat → Option (Int × Nat)
  | 0, i => some (-1, i)
  | n + 1, i =>
    match modes[i]? with
    | none => none
    | some m =>
      if tm1628_grid_popcount m.grid_mask ≠ grids then tm1628_mode_loop modes grids n (i + 1)
      else some ((i : Int), i)

/-- The local variables of `tm1628_spi_probe` the child loop works on: `ret`, `i`,
`s->num_leds`, and the indices `i` of the slots `&s->leds[i++]` handed to
`tm1628_register_led`, in order. -/
structure tm1628_probe_locals where
  ret : Int
  i : Nat
  num_leds : Nat
  slots : List Nat
  deriving DecidableEq

/-- The `device_for_each_child_node` loop of `tm1628_spi_probe`: the locals after the
loop and whether probe returned from inside it (`true`); `none` when the mode table
is read outside its bounds. -/
def tm1628_probe_children (s : tm1628) :
    List fwnode_handle → tm1628_probe_locals → Option (tm1628_probe_locals × Bool)
  | [], l => some (l, false)
  | child :: rest, l =>
    let l := { l with ret := if child.reg.length ≥ 2 then 0 else child.reg_err }
    if l.ret ≠ 0 then some (l, true)
    else if child.reg.length = 2 then
      match tm1628_register_led s child (child.reg.getD 0 0) (child.reg.getD 1 0) with
      | none => none
      | some ret =>
        let l := { l with ret := ret, slots := l.slots ++ [l.i], i := l.i + 1 }
        if l.ret ≠ 0 ∧ l.ret ≠ -EINVAL then some (l, true)
        else tm1628_probe_children s rest { l with num_leds := l.num_leds + 1 }
    else tm1628_probe_children s rest l

/-- What `tm1628_spi_probe` is given besides the SPI device: whether the two
allocations succeed, the match data, status of the `#grids` read and the value the
variable `grids` holds after it (written by the read, or left as it was when the
read fails), the child nodes, whether the backlight device can be registered and the
`props.state` it has when its status is first updated. -/
structure tm1628_probe_env where
  alloc_s_ok : Bool
  info : Option tm1628_info
  alloc_data_ok : Bool
  grids_ret : Int
  grids : Nat
  children : List fwnode_handle
  backlight_ok : Bool
  bl_state : Nat

/-- What `tm1628_spi_probe` leaves behind: its return value, the controller state,
the number of elements the `leds` array was allocated with, and the locals of the
child loop. -/
structure tm1628_probe_result where
  ret : Int
  s : tm1628
  leds : Nat
  locals : tm1628_probe_locals

/-- `tm1628_spi_probe(spi)`; `none` when the mode table is read outside its bounds.
`fbblank` is `BL_CORE_FBBLANK`.  The variable `i` is the one the mode loop leaves
behind; `ret` is returned as it stands when the backlight registration fails. -/
def tm1628_spi_probe (fbblank : Nat) (spi : spi_device) (env : tm1628_probe_env) :
    Option tm1628_probe_result :=
  let leds := env.children.length
  let info0 : tm1628_info := ⟨0, 0, [], 0, 0⟩
  let s : tm1628 := { spi := spi, info := info0, mode_index := 0, pwm_index := 0,
                      data := fun _ => 0, data_len := 0 }
  let l : tm1628_probe_locals := ⟨0, 0, 0, []⟩
  if ¬ env.alloc_s_ok then some ⟨-ENOMEM, s, leds, l⟩
  else
    match env.info with
    | none => some ⟨-EINVAL, s, leds, l⟩
    | some info =>
      let s := { s with info := info }
      let s := { s with pwm_index := s.info.default_pwm }
      match tm1628_set_display_ctrl s.spi false (u8_of_int s.pwm_index) with
      | (spi, ret) =>
        let s := { s with spi := spi }
        let l := { l with ret := ret }
        if l.ret ≠ 0 then some ⟨l.ret, s, leds, l⟩
        else
          let s := { s with data_len := tm1628_probe_data_len s }
          if ¬ env.alloc_data_ok then some ⟨-ENOMEM, s, leds, l⟩
          else
            let l := { l with ret := env.grids_ret }
            let grids := u32 env.grids
            if l.ret ≠ 0 ∧ l.ret ≠ -EINVAL then some ⟨l.ret, s, leds, l⟩
            else
              let s := { s with mode_index := -1 }
              match tm1628_mode_loop s.info.modes grids 4 0 with
              | none => none
              | some (mode_index, i) =>
                let s := { s with mode_index := mode_index }
                let l := { l with i := i }
                if s.mode_index = -1 then some ⟨-EINVAL, s, leds, l⟩
                else
                  match tm1628_probe_children s env.children l with
                  | none => none
                  | some (l, true) => some ⟨l.ret, s, leds, l⟩
                  | some (l, false) =>
                    if ¬ env.backlight_ok then some ⟨l.ret, s, leds, l⟩
                    else
                      match tm1628_set_address s.spi 0x0 with
                      | (spi, ret) =>
                        let s := { s with spi := spi }
                        let l := { l with ret := ret }
                        if l.ret ≠ 0 then some ⟨l.ret, s, leds, l⟩
                        else
                          match tm1628_write_data s.spi s.data s.data_len with
                          | (spi, ret) =>
                            let s := { s with spi := spi }
                            let l := { l with ret := ret }
                            if l.ret ≠ 0 then some ⟨l.ret, s, leds, l⟩
                            else
                              match tm1628_set_display_mode s.spi (u8_of_int s.mode_index) with
                              | (spi, ret) =>
                                let s := { s with spi := spi }
                                let l := { l with ret := ret }
                                if l.ret ≠ 0 then some ⟨l.ret, s, leds, l⟩
                                else
                                  match tm1628_bl_update_status fbblank s env.bl_state
                                      s.pwm_index with
                                  | (s, ret) =>
                                    let l := { l with ret := ret }
                                    if l.ret ≠ 0 then some ⟨l.ret, s, leds, l⟩
                                    else some ⟨0, s, leds, l⟩

/-! ## fd6551.c -/

/-- Message flag `I2C_M_IGNORE_NAK` of `include/uapi/linux/i2c.h`. -/
def I2C_M_IGNORE_NAK : Nat := 0x1000

/-- A `struct mutex` in a sequential model: whether it is held, how often
`mutex_lock_interruptible` was called on it, and what the k-th call returns (0, or
`-EINTR` when a signal arrives while waiting). -/
structure mutex where
  held : Bool
  calls : Nat
  outcome : Nat → Int

/-- `mutex_init(lock)`: the calls made so far are forgotten, the future behaviour of
the environment is kept. -/
def mutex_init (lock : mutex) : mutex :=
  { held := false, calls := 0, outcome := fun k => lock.outcome (lock.calls + k) }

/-- `mutex_lock_interruptible(lock)`. -/
def mutex_lock_interruptible (lock : mutex) : mutex × Int :=
  let ret := lock.outcome lock.calls
  if ret < 0 then ({ lock with calls := lock.calls + 1 }, ret)
  else ({ lock with calls := lock.calls + 1, held := true }, ret)

/-- `mutex_unlock(lock)`. -/
def mutex_unlock (lock : mutex) : mutex :=
  { lock with held := false }

/-- `struct fd6551_data`. -/
structure fd6551_data where
  update_lock : mutex
  i2c_addr : Nat

/-- One transfer as the I2C bus saw it: the bus address the client had when the
transfer was issued, the bytes, and the message flags. -/
structure i2c_xfer where
  addr : Nat
  buf : List Nat
  flags : Nat
  deriving DecidableEq

/-- `struct i2c_client` with its client data: the bus address `client->addr`, the
`struct fd6551_data` behind `i2c_get_clientdata`, the transfers issued so far and
the status the I2C core returns for the k-th transfer (the byte count, or a negative
errno). -/
structure i2c_client where
  addr : Nat
  clientdata : fd6551_data
  sent : List i2c_xfer
  outcome : Nat → Int

/-- `i2c_transfer_buffer_flags(client, buf, count, flags)`. -/
def i2c_transfer_buffer_flags (client : i2c_client) (buf : List Nat) (flags : Nat) :
    i2c_client × Int :=
  ({ client with sent := client.sent ++ [⟨client.addr, buf, flags⟩] },
    client.outcome client.sent.length)

/-- `fd6551_write(client, addr, val)`; both `addr` and `val` are `u8` parameters. -/
def fd6551_write (client : i2c_client) (addr val : Nat) : i2c_client × Int :=
  let addr := u8 addr
  let val := u8 val
  let data := client.clientdata
  let buf := val
  match mutex_lock_interruptible data.update_lock with
  | (lock, ret) =>
    let client := { client with clientdata := { data with update_lock := lock } }
    if ret < 0 then (client, -EAGAIN)
    else
      let client := { client with addr := addr }
      let client := (i2c_transfer_buffer_flags client [buf] I2C_M_IGNORE_NAK).1
      let client := { client with addr := client.clientdata.i2c_addr }
      let client := { client with
        clientdata := { client.clientdata with
          update_lock := mutex_unlock client.clientdata.update_lock } }
      (client, 0)

/-- `fd6551_probe(client, id)`: `alloc_ok` tells whether `devm_kzalloc` succeeds and
`sysfs_err` is what `sysfs_create_group` returns.  `data->i2c_addr` is a `u8`. -/
def fd6551_probe (client : i2c_client) (alloc_ok : Bool) (sysfs_err : Int) :
    i2c_client × Int :=
  if ¬ alloc_ok then (client, -ENOMEM)
  else
    let data : fd6551_data := { client.clientdata with i2c_addr := u8 client.addr }
    let client := { client with clientdata := data }
    let client := { client with
      clientdata := { client.clientdata with
        update_lock := mutex_init client.clientdata.update_lock } }
    if sysfs_err < 0 then (client, sysfs_err)
    else (client, 0)

/-! ## sevensegdisp.c -/

/-- The segment bit positions `BIT_SEG7_A` .. `BIT_SEG7_G` of
`include/uapi/linux/map_to_7segment.h`, a header this development takes as a
parameter. -/
structure seg7_bits where
  BIT_SEG7_A : Nat
  BIT_SEG7_B : Nat
  BIT_SEG7_C : Nat
  BIT_SEG7_D : Nat
  BIT_SEG7_E : Nat
  BIT_SEG7_F : Nat
  BIT_SEG7_G : Nat
  deriving DecidableEq

/-- The seven positions in the order A, B, C, D, E, F, G. -/
def seg7_bits.positions (b : seg7_bits) : List Nat :=
  [b.BIT_SEG7_A, b.BIT_SEG7_B, b.BIT_SEG7_C, b.BIT_SEG7_D, b.BIT_SEG7_E, b.BIT_SEG7_F,
    b.BIT_SEG7_G]

/-- The seven positions are the bits 0..6 of a pattern, each used once. -/
def seg7_bits.wellformed (b : seg7_bits) : Prop := b.positions.Perm (List.range 7)

/-- The positions the kernel header gives: A = 0, B = 1, ..., G = 6. -/
def seg7_bits_linux : seg7_bits := ⟨0, 1, 2, 3, 4, 5, 6⟩

/-- `flip_seg7(val)`; `val` and `new` are `unsigned char`.  In C,
`val & 1 << A ? 1 << D : 0` groups as `(val & (1 << A)) ? (1 << D) : 0`. -/
def flip_seg7 (b : seg7_bits) (val : Nat) : Nat :=
  let val := u8 val
  let new := 0
  let new := u8 (new ||| (if val &&& 1 <<< b.BIT_SEG7_A ≠ 0 then 1 <<< b.BIT_SEG7_D else 0))
  let new := u8 (new ||| (if val &&& 1 <<< b.BIT_SEG7_B ≠ 0 then 1 <<< b.BIT_SEG7_E else 0))
  let new := u8 (new ||| (if val &&& 1 <<< b.BIT_SEG7_C ≠ 0 then 1 <<< b.BIT_SEG7_F else 0))
  let new := u8 (new ||| (if val &&& 1 <<< b.BIT_SEG7_D ≠ 0 then 1 <<< b.BIT_SEG7_A else 0))
  let new := u8 (new ||| (if val &&& 1 <<< b.BIT_SEG7_E ≠ 0 then 1 <<< b.BIT_SEG7_B else 0))
  let new := u8 (new ||| (if val &&& 1 <<< b.BIT_SEG7_F ≠ 0 then 1 <<< b.BIT_SEG7_C else 0))
  let new := u8 (new ||| (val &&& 1 <<< b.BIT_SEG7_G))
  new

/-- `struct seg7disp_glyph` (without the embedded device attribute). -/
structure seg7disp_glyph where
  name : String
  bit : Nat
  deriving DecidableEq

/-- The global `seg7disp_data`.  `glyphs` is the array of `SEG7DISP_GLYPHS_SIZE`
pointers, `none` standing for `NULL`. -/
structure seg7disp_data where
  controller : i2c_client
  enable : Bool
  ndigits : Nat
  digit_addrs : Nat → Nat
  glyph_addr : Nat
  enable_addr : Nat
  flipped : Bool
  glyphs : Nat → Option seg7disp_glyph
  glyphs_state : Nat

/-- The byte `digits_store` computes for position `i`: `map_to_seg7(&map_seg7, buf[i])`
stored in the `u8 val`, mirrored when the display is flipped.  `map_to_seg7` is the
lookup of the kernel header, taken as a parameter. -/
def digit_val (b : seg7_bits) (map_to_seg7 : Int → Int) (flipped : Bool) (buf : Nat → Int)
    (i : Nat) : Nat :=
  let val := u8_of_int (map_to_seg7 (buf i))
  if flipped then flip_seg7 b val else val

/-- The `for (i = 0; i < seg7disp_data.ndigits; i++)` loop of `digits_store` with `n`
iterations left at index `i`: the state, and the value returned from inside the loop
if it returns (`none` when the loop runs to its end). -/
def digits_store_loop (b : seg7_bits) (map_to_seg7 : Int → Int) (buf : Nat → Int) :
    Nat → Nat → seg7disp_data → seg7disp_data × Option Int
  | 0, _, d => (d, none)
  | n + 1, i, d =>
    let val := digit_val b map_to_seg7 d.flipped buf i
    let addr := u8 (d.digit_addrs i)
    match fd6551_write d.controller addr val with
    | (controller, rc) =>
      let d := { d with controller := controller }
      if rc < 0 then (d, some rc)
      else digits_store_loop b map_to_seg7 buf n (i + 1) d

/-- `digits_store(dev, attr, buf, len)` on the global state `d`; `buf` is read
through the pointer, whatever `len` is. -/
def digits_store (b : seg7_bits) (map_to_seg7 : Int → Int) (d : seg7disp_data)
    (buf : Nat → Int) (len : Nat) : seg7disp_data × Int :=
  match digits_store_loop b map_to_seg7 buf d.ndigits 0 d with
  | (d, some rc) => (d, rc)
  | (d, none) => (d, (len : Int))

/-- The transfer `digits_store` issues for digit `i`. -/
def digit_xfer (b : seg7_bits) (map_to_seg7 : Int → Int) (d : seg7disp_data)
    (buf : Nat → Int) (i : Nat) : i2c_xfer :=
  ⟨u8 (d.digit_addrs i), [digit_val b map_to_seg7 d.flipped buf i], I2C_M_IGNORE_NAK⟩

/-- Bitwise complement of an `int`, as a 32-bit pattern. -/
def not32 (x : Nat) : Nat := 2 ^ 32 - 1 - x % 2 ^ 32

/-- The new value of `seg7disp_data.glyphs_state` (a `u8`) in `glyph_store`:
`glyphs_state |= 1 << bit` or `glyphs_state &= ~(1 << bit)`.  The shift is an `int`
shift, defined in C for `bit < 31`. -/
def glyph_state_update (glyphs_state : Nat) (bit : Nat) (enable : Bool) : Nat :=
  if enable then u8 (glyphs_state ||| 1 <<< bit)
  else u8 (glyphs_state &&& not32 (1 <<< bit))

/-- The loop `for (i = 0; i < SEG7DISP_GLYPHS_SIZE - 1; i++)` of `glyph_store`, with
`n` iterations left at index `i`: the state and the value returned from inside the
loop, if any.  The result is `none` when `seg7disp_data.glyphs[i]->name` dereferences
a `NULL` slot. -/
def glyph_store_loop (name : String) (enable : Bool) :
    Nat → Nat → seg7disp_data → Option (seg7disp_data × Option Int)
  | 0, _, d => some (d, none)
  | n + 1, i, d =>
    match d.glyphs i with
    | none => none
    | some glyph =>
      if glyph.name = name then
        let d := { d with glyphs_state := glyph_state_update d.glyphs_state glyph.bit enable }
        match fd6551_write d.controller d.glyph_addr d.glyphs_state with
        | (controller, rc) =>
          let d := { d with controller := controller }
          if rc < 0 then some (d, some rc)
          else some (d, none)
      else glyph_store_loop name enable n (i + 1) d

/-- `glyph_store(dev, attr, buf, len)` on the global state `d`, with
`name = attr->attr.name`; `'1'` is 49 and `'0'` is 48.  The loop bound
`SEG7DISP_GLYPHS_SIZE - 1` expands to `7 + 1 - 1`. -/
def glyph_store (d : seg7disp_data) (name : String) (buf : Nat → Int) (len : Nat) :
    Option (seg7disp_data × Int) :=
  if buf 0 = 49 then
    match glyph_store_loop name true 7 0 d with
    | none => none
    | some (d, some rc) => some (d, rc)
    | some (d, none) => some (d, (len : Int))
  else if buf 0 = 48 then
    match glyph_store_loop name false 7 0 d with
    | none => none
    | some (d, some rc) => some (d, rc)
    | some (d, none) => some (d, (len : Int))
  else some (d, -EINVAL)

/-- Index of the first `NULL` entry of a pointer array among `n` entries from `i` on:
the search both loops of `seg7disp_register_glyph` make. -/
def first_null {α : Type} (a : Nat → Option α) : Nat → Nat → Option Nat
  | 0, _ => none
  | n + 1, i => if (a i).isNone then some i else first_null a n (i + 1)

/-- `seg7disp_register_glyph(dev, name, bit)` on the global state `d` and the global
array `seg7disp_attrs` (the names of its attributes, `none` for `NULL`);
`sysfs_ret` is what `sysfs_update_group` returns.  The loop bounds
`SEG7DISP_GLYPHS_SIZE - 1` and `SEG7DISP_ATTRS_SIZE - 1` expand to `7 + 1 - 1` and
`7 + 1 + 2 - 1`.  The unchecked `devm_kzalloc` is taken to succeed. -/
def seg7disp_register_glyph (d : seg7disp_data) (attrs : Nat → Option String)
    (name : String) (bit : Nat) (sysfs_ret : Int) :
    seg7disp_data × (Nat → Option String) × Int :=
  match first_null d.glyphs 7 0 with
  | none => (d, attrs, -ENOBUFS)
  | some i =>
    let glyph : seg7disp_glyph := ⟨name, u32 bit⟩
    let d := { d with
      glyphs := Function.update (Function.update d.glyphs i (some glyph)) (i + 1) none }
    match first_null attrs 9 0 with
    | none => (d, attrs, -ENOBUFS)
    | some j =>
      let attrs := Function.update (Function.update attrs j (some name)) (j + 1) none
      (d, attrs, sysfs_ret)

/-- The array `seg7disp_attrs` as initialised: the `enable` attribute, then `NULL`. -/
def seg7disp_attrs_init : Nat → Option String :=
  fun i => if i = 0 then some "enable" else none

/-- The glyphs of a list of names registered in order on `d`, the way
`seg7disp_probe` does it: name number `i` gets bit `i`. -/
def seg7disp_register_glyphs (d : seg7disp_data) (attrs : Nat → Option String) :
    List String → Nat → seg7disp_data × (Nat → Option String)
  | [], _ => (d, attrs)
  | name :: names, i =>
    match seg7disp_register_glyph d attrs name i 0 with
    | (d, attrs, _) => seg7disp_register_glyphs d attrs names (i + 1)

/-- The one-character inputs "1" and "0" of a glyph attribute. -/
def buf_1 (i : Nat) : Int := if i = 0 then 49 else 0

/-- See `buf_1`. -/
def buf_0 (i : Nat) : Int := if i = 0 then 48 else 0

/-- Whether the next `mutex_lock_interruptible` on the client's `update_lock` is
interrupted. -/
def lock_interrupted (client : i2c_client) (k : Nat) : Prop :=
  client.clientdata.update_lock.outcome (client.clientdata.update_lock.calls + k) < 0

instance lock_interrupted_decidable (client : i2c_client) (k : Nat) :
    Decidable (lock_interrupted client k) := by
  unfold lock_interrupted; infer_instance

/-- An FD6551 at bus address 0x24 after a successful `fd6551_probe`, in an
environment where the k-th lock acquisition returns `lock k` and the k-th transfer
returns `bus k`. -/
def fd6551_client_at (lock bus : Nat → Int) : i2c_client :=
  (fd6551_probe ⟨0x24, ⟨⟨false, 0, lock⟩, 0⟩, [], bus⟩ true 0).1

/-- The lock is never interrupted and every transfer is reported as one byte sent. -/
def fd6551_client_ok : i2c_client :=
  fd6551_client_at (fun _ => 0) (fun _ => 1)

/-- The first lock acquisition is interrupted (-EINTR). -/
def fd6551_client_intr : i2c_client :=
  fd6551_client_at (fun k => if k = 0 then -4 else 0) (fun _ => 1)

/-- The second lock acquisition is interrupted (-EINTR). -/
def fd6551_client_intr_second : i2c_client :=
  fd6551_client_at (fun k => if k = 1 then -4 else 0) (fun _ => 1)

/-- The bus reports -5 (the errno of an I/O error) for every transfer; the lock is
never interrupted. -/
def fd6551_client_eio : i2c_client :=
  fd6551_client_at (fun _ => 0) (fun _ => -5)

/-- A stand-in for `map_to_seg7` that knows the digits '0'..'3' only (patterns of the
kernel default map); every other code below 128 is blank and anything else is
`-EINVAL`, as in the kernel helper. -/
def map_to_seg7_sample (c : Int) : Int :=
  if c = 48 then 0x3F else if c = 49 then 0x06 else if c = 50 then 0x5B
  else if c = 51 then 0x4F else if 0 ≤ c ∧ c < 128 then 0 else -EINVAL

/-- The text "12" followed by NUL bytes. -/
def buf_12 (i : Nat) : Int := if i = 0 then 49 else if i = 1 then 50 else 0

/-- A two-digit display on the controller `client`, digits at 0x34 and `digit1`. -/
def seg7disp_sample (client : i2c_client) (digit1 : Nat) : seg7disp_data :=
  { controller := client, enable := false, ndigits := 2,
    digit_addrs := fun i => if i = 0 then 0x34 else digit1,
    glyph_addr := 0, enable_addr := 0x24, flipped := false,
    glyphs := fun _ => none, glyphs_state := 0 }

/-- The display `seg7disp_sample` with the glyphs of the given names registered. -/
def seg7disp_with_glyphs (names : List String) : seg7disp_data :=
  (seg7disp_register_glyphs (seg7disp_sample fd6551_client_ok 0x35) seg7disp_attrs_init
    names 0).1

/-- A TM1628 controller right after probe selected the 7-grid mode: all LEDs dark,
nothing submitted yet, and a bus that accepts every message. -/
def tm1628_fresh : tm1628 :=
  { spi := ⟨[], fun _ => 0⟩, info := tm1628_info_tm1628, mode_index := 3, pwm_index := 0,
    data := fun _ => 0, data_len := 14 }

/-- The controller `tm1628_fresh` on a bus that rejects every message with -5 (the
errno of an I/O error). -/
def tm1628_fresh_dead_bus : tm1628 :=
  { tm1628_fresh with spi := ⟨[], fun _ => -5⟩ }

/-- An SPI device with nothing submitted yet and a bus that accepts every message. -/
def spi_idle : spi_device := ⟨[], fun _ => 0⟩

/-- The value of `BL_CORE_FBBLANK` in `include/linux/backlight.h`: `1 << 1`. -/
def BL_CORE_FBBLANK_linux : Nat := 1 <<< 1

/-- A probe in which every allocation, property read and registration succeeds, for
the given variant, `#grids` value and child nodes. -/
def tm1628_probe_env_ok (info : tm1628_info) (grids : Nat)
    (children : List fwnode_handle) : tm1628_probe_env :=
  { alloc_s_ok := true, info := some info, alloc_data_ok := true, grids_ret := 0,
    grids := grids, children := children, backlight_ok := true, bl_state := 0 }

/-- The display with the single glyph "wifi" (bit 0) registered, in a state where the
indicator byte already has bit 0 set. -/
def seg7disp_wifi_lit : seg7disp_data :=
  { seg7disp_with_glyphs ["wifi"] with glyphs_state := 0x01 }

/-! ## Claims on grid/segment addressing -/

/-- On the valid domain the guard of `tm1628_get_led_offset` is not taken and the
two branches on `bit >= 8` collapse to one closed formula. -/
theorem get_led_offset_formula (grid seg : Nat)
    (hg : 1 ≤ grid ∧ grid ≤ 7) (hs : 1 ≤ seg ∧ seg ≤ 16) :
    tm1628_get_led_offset grid seg =
      (0, some ((grid - 1) * 2 + (if seg - 1 ≥ 8 then 1 else 0), (seg - 1) % 8)) := by
  have hguard : ¬ (grid = 0 ∨ grid > 7 ∨ seg = 0 ∨ seg > 16) := by omega
  unfold tm1628_get_led_offset
  rw [if_neg hguard]
  by_cases hb : seg - 1 ≥ 8
  · have hm : (seg - 1) % 8 = seg - 1 - 8 := by omega
    simp only [hb, if_true, hm]
  · have hm : (seg - 1) % 8 = seg - 1 := by omega
    simp only [hb, if_false, hm, Nat.add_zero]

/-- Outside the valid domain `tm1628_get_led_offset` fails and writes nothing. -/
theorem get_led_offset_invalid (grid seg : Nat)
    (h : grid = 0 ∨ grid > 7 ∨ seg = 0 ∨ seg > 16) :
    tm1628_get_led_offset grid seg = (-EINVAL, none) := by
  unfold tm1628_get_led_offset
  rw [if_pos h]

/-- For every offset the addressing yields (at most 13) the 4-bit mask of
`tm1628_set_address` keeps the offset whole. -/
theorem set_address_cmd (offset : Nat) (h : offset ≤ 13) :
    u8 (TM1628_CMD_ADDRESS_SETTING ||| (u8 offset &&& GENMASK 3 0)) = 0xC0 ||| offset := by
  interval_cases offset <;> decide

/-- C1: for every grid in 1..7 and segment in 1..16, `tm1628_get_led_offset` returns 0
with offset `(grid-1)*2 + (1 if segment-1 >= 8 else 0)` and bit `(segment-1) mod 8`;
grid 3, segment 9 gives (5, 0). -/
theorem tm1628_get_led_offset_valid (grid seg : Nat)
    (hg : 1 ≤ grid ∧ grid ≤ 7) (hs : 1 ≤ seg ∧ seg ≤ 16) :
    tm1628_get_led_offset grid seg =
        (0, some ((grid - 1) * 2 + (if seg - 1 ≥ 8 then 1 else 0), (seg - 1) % 8)) ∧
    tm1628_get_led_offset 3 9 = (0, some (5, 0)) :=
  ⟨get_led_offset_formula grid seg hg hs, by decide⟩

/-- Witness for C1 at grid 3, segment 9: the location is (5, 0). -/
theorem tm1628_get_led_offset_valid_witness :
    (1 ≤ 3 ∧ 3 ≤ 7) ∧ (1 ≤ 9 ∧ 9 ≤ 16) ∧
      tm1628_get_led_offset 3 9 = (0, some (5, 0)) :=
  ⟨by decide, by decide, (tm1628_get_led_offset_valid 3 9 (by decide) (by decide)).1⟩

/-- C2: a coordinate with grid = 0, grid > 7, segment = 0 or segment > 16 makes
`tm1628_set_led` and `tm1628_led_set_brightness` return -EINVAL with the state bitmap
unchanged, and `tm1628_led_set_brightness` submits nothing to the SPI bus. -/
theorem tm1628_set_led_out_of_range (s : tm1628) (grid seg : Nat) (on_ : Bool)
    (h : grid = 0 ∨ grid > 7 ∨ seg = 0 ∨ seg > 16) :
    (tm1628_set_led s grid seg on_).2 = -EINVAL ∧
    (tm1628_set_led s grid seg on_).1.data = s.data ∧
    (tm1628_led_set_brightness ⟨s, grid, seg⟩ on_).2 = -EINVAL ∧
    (tm1628_led_set_brightness ⟨s, grid, seg⟩ on_).1.data = s.data ∧
    (tm1628_led_set_brightness ⟨s, grid, seg⟩ on_).1.spi.sent = s.spi.sent := by
  have hset : tm1628_set_led s grid seg on_ = (s, -EINVAL) := by
    unfold tm1628_set_led
    rw [get_led_offset_invalid grid seg h]
  have hbr : tm1628_led_set_brightness ⟨s, grid, seg⟩ on_ = (s, -EINVAL) := by
    unfold tm1628_led_set_brightness
    simp only [hset]
    rw [if_pos (by decide)]
  rw [hset, hbr]
  exact ⟨rfl, rfl, rfl, rfl, rfl⟩

/-- Witness for C2 at grid 8, segment 1 on the fresh controller. -/
theorem tm1628_set_led_out_of_range_witness :
    (tm1628_led_set_brightness ⟨tm1628_fresh, 8, 1⟩ true).2 = -EINVAL ∧
    (tm1628_led_set_brightness ⟨tm1628_fresh, 8, 1⟩ true).1.data = tm1628_fresh.data ∧
    (tm1628_led_set_brightness ⟨tm1628_fresh, 8, 1⟩ true).1.spi.sent = [] :=
  (tm1628_set_led_out_of_range tm1628_fresh 8 1 true (by decide)).2.2

/-- C3: for a valid coordinate, `tm1628_led_set_brightness` first submits the single
byte `0xC0 | offset` (the offset of `tm1628_get_led_offset`, whole); if that message
fails its error is returned and nothing else is submitted; otherwise it submits the
command byte 0x40 followed by exactly the updated bitmap byte at that offset, and
returns 0 when this second message succeeds too. -/
theorem tm1628_led_set_brightness_sequence (s : tm1628) (grid seg : Nat) (on_ : Bool)
    (hg : 1 ≤ grid ∧ grid ≤ 7) (hs : 1 ≤ seg ∧ seg ≤ 16) :
    ∃ offset bit, tm1628_get_led_offset grid seg = (0, some (offset, bit)) ∧
      (tm1628_led_set_brightness ⟨s, grid, seg⟩ on_).1.data offset =
        (if on_ then u8 (s.data offset ||| BIT bit)
         else u8 (s.data offset &&& not64 (BIT bit))) ∧
      (s.spi.outcome s.spi.sent.length = 0 →
        s.spi.outcome (s.spi.sent.length + 1) = 0 →
        (tm1628_led_set_brightness ⟨s, grid, seg⟩ on_).2 = 0 ∧
        (tm1628_led_set_brightness ⟨s, grid, seg⟩ on_).1.spi.sent =
          s.spi.sent ++
            [[[0xC0 ||| offset]],
             [[0x40], [(tm1628_led_set_brightness ⟨s, grid, seg⟩ on_).1.data offset]]]) ∧
      (s.spi.outcome s.spi.sent.length ≠ 0 →
        (tm1628_led_set_brightness ⟨s, grid, seg⟩ on_).2 = s.spi.outcome s.spi.sent.length ∧
        (tm1628_led_set_brightness ⟨s, grid, seg⟩ on_).1.spi.sent =
          s.spi.sent ++ [[[0xC0 ||| offset]]]) := by
  have hoff := get_led_offset_formula grid seg hg hs
  have hle : (grid - 1) * 2 + (if seg - 1 ≥ 8 then 1 else 0) ≤ 13 := by
    split <;> omega
  refine ⟨_, _, hoff, ?_⟩
  generalize (grid - 1) * 2 + (if seg - 1 ≥ 8 then 1 else 0) = offset at hoff hle
  generalize (seg - 1) % 8 = bit at hoff
  have hcmd := set_address_cmd offset hle
  have hdat : u8 (TM1628_CMD_DATA_SETTING ||| TM1628_DATA_SETTING_WRITE_DATA) = 0x40 := by
    decide
  have hrange : List.range 1 = [0] := by decide
  cases on_ <;>
  · refine ⟨?_, ?_, ?_⟩
    · by_cases h1 : s.spi.outcome s.spi.sent.length = 0 <;>
        simp [tm1628_led_set_brightness, tm1628_set_led, hoff, tm1628_set_address,
          tm1628_write_data, spi_write, spi_sync_transfer, h1]
    · intro h1 h2
      simp [tm1628_led_set_brightness, tm1628_set_led, hoff, tm1628_set_address,
        tm1628_write_data, spi_write, spi_sync_transfer, h1, h2, hcmd, hdat, hrange]
    · intro h1
      simp [tm1628_led_set_brightness, tm1628_set_led, hoff, tm1628_set_address,
        tm1628_write_data, spi_write, spi_sync_transfer, h1, hcmd]

/-- Witness for C3: switching on grid 3, segment 9 of the fresh controller sends the
address byte 0xC5 and then 0x40 with the payload byte 0x01; on a dead bus only the
address byte is tried and -5 comes back. -/
theorem tm1628_led_set_brightness_sequence_witness :
    ((tm1628_led_set_brightness ⟨tm1628_fresh, 3, 9⟩ true).2 = 0 ∧
      (tm1628_led_set_brightness ⟨tm1628_fresh, 3, 9⟩ true).1.spi.sent =
        [[[0xC5]], [[0x40], [0x01]]]) ∧
    ((tm1628_led_set_brightness ⟨tm1628_fresh_dead_bus, 3, 9⟩ true).2 = -5 ∧
      (tm1628_led_set_brightness ⟨tm1628_fresh_dead_bus, 3, 9⟩ true).1.spi.sent =
        [[[0xC5]]]) := by
  constructor
  · obtain ⟨offset, bit, hoff, hdata, hok, _⟩ :=
      tm1628_led_set_brightness_sequence tm1628_fresh 3 9 true (by decide) (by decide)
    have h39 : tm1628_get_led_offset 3 9 = (0, some (5, 0)) := by decide
    rw [h39] at hoff
    simp only [Prod.mk.injEq, Option.some.injEq, true_and] at hoff
    obtain ⟨rfl, rfl⟩ := hoff
    have h := hok rfl rfl
    rw [hdata] at h
    exact h
  · obtain ⟨offset, bit, hoff, _, _, hfail⟩ :=
      tm1628_led_set_brightness_sequence tm1628_fresh_dead_bus 3 9 true
        (by decide) (by decide)
    have h39 : tm1628_get_led_offset 3 9 = (0, some (5, 0)) := by decide
    rw [h39] at hoff
    simp only [Prod.mk.injEq, Option.some.injEq, true_and] at hoff
    obtain ⟨rfl, rfl⟩ := hoff
    exact hfail (by decide)

/-- C6: on the valid domain `tm1628_get_led_offset` is injective. -/
theorem tm1628_get_led_offset_injective (grid1 seg1 grid2 seg2 : Nat)
    (hg1 : 1 ≤ grid1 ∧ grid1 ≤ 7) (hs1 : 1 ≤ seg1 ∧ seg1 ≤ 16)
    (hg2 : 1 ≤ grid2 ∧ grid2 ≤ 7) (hs2 : 1 ≤ seg2 ∧ seg2 ≤ 16)
    (h : tm1628_get_led_offset grid1 seg1 = tm1628_get_led_offset grid2 seg2) :
    grid1 = grid2 ∧ seg1 = seg2 := by
  rw [get_led_offset_formula grid1 seg1 hg1 hs1,
    get_led_offset_formula grid2 seg2 hg2 hs2] at h
  simp only [Prod.mk.injEq, Option.some.injEq, true_and] at h
  obtain ⟨ho, hb⟩ := h
  split at ho <;> split at ho <;> omega

/-- Witness for C6: grid 3, segment 9 shares its location only with itself. -/
theorem tm1628_get_led_offset_injective_witness :
    tm1628_get_led_offset 3 9 = tm1628_get_led_offset 3 9 ∧ (3 = 3 ∧ 9 = 9) :=
  ⟨rfl, tm1628_get_led_offset_injective 3 9 3 9 (by decide) (by decide) (by decide)
    (by decide) rfl⟩

/-! ## Claims on mode selection -/

/-- After eight iterations the loop condition of `tm1628_grid_popcount` is false,
whatever byte it started from: the `while` loop has exited. -/
theorem tm1628_grid_popcount_loop_exits (grid_mask : Nat) :
    (tm1628_grid_popcount_loop 8 (u8 grid_mask, 0)).1 = 0 := by
  have hlt : u8 grid_mask < 256 := Nat.mod_lt _ (by decide)
  generalize u8 grid_mask = b at hlt
  revert b
  set_option maxRecDepth 100000 in decide

/-- On a byte `tm1628_grid_popcount` counts the set bits. -/
theorem tm1628_grid_popcount_eq_hweight (grid_mask : Nat) :
    tm1628_grid_popcount grid_mask = hweight (u8 grid_mask) := by
  have hlt : u8 grid_mask < 256 := Nat.mod_lt _ (by decide)
  have key : ∀ b, b < 256 → (tm1628_grid_popcount_loop 8 (b, 0)).2 = hweight b := by
    set_option maxRecDepth 100000 in decide
  exact key _ hlt

/-- The loop of `tm1628_spi_probe` over `tm1628_modes`, in closed form. -/
theorem tm1628_modes_scan (grids : Nat) :
    tm1628_mode_scan tm1628_modes grids 4 0 =
      some (if grids = 4 then 0 else if grids = 5 then 1 else if grids = 6 then 2
        else if grids = 7 then 3 else -1) := by
  have h0 : tm1628_grid_popcount (GENMASK 4 1) = 4 := by decide
  have h1 : tm1628_grid_popcount (GENMASK 5 1) = 5 := by decide
  have h2 : tm1628_grid_popcount (GENMASK 6 1) = 6 := by decide
  have h3 : tm1628_grid_popcount (GENMASK 7 1) = 7 := by decide
  by_cases e4 : grids = 4
  · subst e4; simp [tm1628_mode_scan, tm1628_modes, h0]
  by_cases e5 : grids = 5
  · subst e5; simp [tm1628_mode_scan, tm1628_modes, h0, h1]
  by_cases e6 : grids = 6
  · subst e6; simp [tm1628_mode_scan, tm1628_modes, h0, h1, h2]
  by_cases e7 : grids = 7
  · subst e7; simp [tm1628_mode_scan, tm1628_modes, h0, h1, h2, h3]
  have n4 : ¬ 4 = grids := fun h => e4 h.symm
  have n5 : ¬ 5 = grids := fun h => e5 h.symm
  have n6 : ¬ 6 = grids := fun h => e6 h.symm
  have n7 : ¬ 7 = grids := fun h => e7 h.symm
  simp [tm1628_mode_scan, tm1628_modes, h0, h1, h2, h3, e4, e5, e6, e7, n4, n5, n6, n7]

/-- The first four entries of `ht16515_modes` and of `aip1618_modes` carry the grid
masks of `tm1628_modes`, so the loop of `tm1628_spi_probe` behaves alike on all
three tables. -/
theorem mode_scan_same_on_all_tables (grids : Nat) :
    tm1628_mode_scan ht16515_modes grids 4 0 = tm1628_mode_scan tm1628_modes grids 4 0 ∧
    tm1628_mode_scan aip1618_modes grids 4 0 = tm1628_mode_scan tm1628_modes grids 4 0 := by
  constructor <;> simp [tm1628_mode_scan, tm1628_modes, ht16515_modes, aip1618_modes]

/-- The entries of each table that have `grids` set bits in their grid mask. -/
theorem matching_modes_tables (grids : Nat) :
    matching_modes tm1628_modes grids =
      (if 4 ≤ grids ∧ grids ≤ 7 then [grids - 4] else []) ∧
    matching_modes aip1618_modes grids =
      (if 4 ≤ grids ∧ grids ≤ 7 then [grids - 4] else []) ∧
    matching_modes ht16515_modes grids =
      (if 4 ≤ grids ∧ grids ≤ 11 then [grids - 4]
       else if grids = 12 then [8, 9, 10, 11, 12, 13, 14, 15] else []) := by
  by_cases hr : 4 ≤ grids ∧ grids ≤ 12
  · obtain ⟨h4, h12⟩ := hr
    interval_cases grids <;> decide
  · have hw : ∀ k, k = 4 ∨ k = 5 ∨ k = 6 ∨ k = 7 ∨ k = 8 ∨ k = 9 ∨ k = 10 ∨ k = 11 ∨ k = 12 →
        ¬ k = grids := by
      intro k hk; omega
    have g4 : hweight (GENMASK 4 1) = 4 := by decide
    have g5 : hweight (GENMASK 5 1) = 5 := by decide
    have g6 : hweight (GENMASK 6 1) = 6 := by decide
    have g7 : hweight (GENMASK 7 1) = 7 := by decide
    have g8 : hweight (GENMASK 8 1) = 8 := by decide
    have g9 : hweight (GENMASK 9 1) = 9 := by decide
    have g10 : hweight (GENMASK 10 1) = 10 := by decide
    have g11 : hweight (GENMASK 11 1) = 11 := by decide
    have g12 : hweight (GENMASK 12 1) = 12 := by decide
    have r4 : List.range 4 = [0, 1, 2, 3] := by decide
    have r16 : List.range 16 = [0, 1, 2, 3, 4, 5, 6, 7, 8, 9, 10, 11, 12, 13, 14, 15] := by
      decide
    have n1 : ¬ (4 ≤ grids ∧ grids ≤ 7) := by omega
    have n2 : ¬ (4 ≤ grids ∧ grids ≤ 11) := by omega
    have n3 : ¬ grids = 12 := by omega
    rw [if_neg n1, if_neg n2, if_neg n3]
    refine ⟨?_, ?_, ?_⟩ <;>
      simp [matching_modes, tm1628_modes, aip1618_modes, ht16515_modes, r4, r16,
        List.filter, g4, g5, g6, g7, g8, g9, g10, g11, g12, hw]

/-- Where the specification's rule and the loop agree: on every table a grid count
that matches no entry leaves `mode_index` at -1, and a grid count matched by exactly
one entry selects it when that entry is among the first four. -/
theorem mode_scan_agrees_on_first_four (modes : List tm1628_mode) (grids : Nat)
    (hm : modes = tm1628_modes ∨ modes = ht16515_modes ∨ modes = aip1618_modes) :
    (matching_modes modes grids = [] → tm1628_mode_scan modes grids 4 0 = some (-1)) ∧
    (∀ i, i < 4 → matching_modes modes grids = [i] →
      tm1628_mode_scan modes grids 4 0 = some (i : Int)) := by
  have hscan : tm1628_mode_scan modes grids 4 0 = tm1628_mode_scan tm1628_modes grids 4 0 := by
    rcases hm with h | h | h
    · rw [h]
    · rw [h]; exact (mode_scan_same_on_all_tables grids).1
    · rw [h]; exact (mode_scan_same_on_all_tables grids).2
  rw [hscan, tm1628_modes_scan]
  obtain ⟨t1, t2, t3⟩ := matching_modes_tables grids
  constructor
  · intro hnone
    have hout : ¬ (4 ≤ grids ∧ grids ≤ 7) := by
      intro hin
      rcases hm with h | h | h
      · rw [h, t1, if_pos hin] at hnone; exact List.cons_ne_nil _ _ hnone
      · rw [h, t3, if_pos ⟨hin.1, by omega⟩] at hnone; exact List.cons_ne_nil _ _ hnone
      · rw [h, t2, if_pos hin] at hnone; exact List.cons_ne_nil _ _ hnone
    have e4 : ¬ grids = 4 := by omega
    have e5 : ¬ grids = 5 := by omega
    have e6 : ¬ grids = 6 := by omega
    have e7 : ¬ grids = 7 := by omega
    simp [e4, e5, e6, e7]
  · intro i hi hone
    have hg : grids = i + 4 := by
      rcases hm with h | h | h
      · rw [h, t1] at hone
        split at hone
        · simp only [List.cons.injEq, and_true] at hone; omega
        · exact absurd hone.symm (List.cons_ne_nil _ _)
      · rw [h, t3] at hone
        split at hone
        · simp only [List.cons.injEq, and_true] at hone; omega
        · split at hone
          · simp at hone
          · exact absurd hone.symm (List.cons_ne_nil _ _)
      · rw [h, t2] at hone
        split at hone
        · simp only [List.cons.injEq, and_true] at hone; omega
        · exact absurd hone.symm (List.cons_ne_nil _ _)
    subst hg
    interval_cases i <;> simp

/-- C4: the HT16515 table has exactly one entry with eight grid lines (index 4), yet a
request for eight grids leaves `mode_index` at -1 and probe fails with -EINVAL: the
loop looks at four entries only, and `tm1628_grid_popcount` sees the low byte of the
mask, which has seven bits set. -/
theorem ht16515_eight_grids_not_selected :
    matching_modes ht16515_modes 8 = [4] ∧
    tm1628_grid_popcount (GENMASK 8 1) = 7 ∧
    tm1628_mode_scan ht16515_modes 8 4 0 = some (-1) ∧
    tm1628_spi_probe_mode ht16515_info 8 = some (-1, -EINVAL) := by
  refine ⟨by decide, by decide, by decide, by decide⟩

/-- C5: `tm1628_grid_popcount` gives 4, 5, 6, 7 on `tm1628_modes`; a request for
`grids` in 4..7 selects index `grids - 4` (6 selects 2) and any other request selects
nothing and fails with -EINVAL. -/
theorem tm1628_modes_selection (grids : Nat) :
    tm1628_modes.map (fun m => tm1628_grid_popcount m.grid_mask) = [4, 5, 6, 7] ∧
    tm1628_spi_probe_mode tm1628_info_tm1628 6 = some (2, 0) ∧
    tm1628_spi_probe_mode tm1628_info_tm1628 grids =
      (if 4 ≤ grids ∧ grids ≤ 7 then some ((grids : Int) - 4, 0)
       else some (-1, -EINVAL)) := by
  refine ⟨by decide, by decide, ?_⟩
  unfold tm1628_spi_probe_mode
  have hinfo : tm1628_info_tm1628.modes = tm1628_modes := rfl
  rw [hinfo, tm1628_modes_scan]
  by_cases e4 : grids = 4
  · subst e4; decide
  by_cases e5 : grids = 5
  · subst e5; decide
  by_cases e6 : grids = 6
  · subst e6; decide
  by_cases e7 : grids = 7
  · subst e7; decide
  have hout : ¬ (4 ≤ grids ∧ grids ≤ 7) := by omega
  simp [e4, e5, e6, e7, hout]

/-! ## Claims on the FD6551 command channel -/

/-- An interrupted lock acquisition ends `fd6551_write` before the client is
touched. -/
theorem fd6551_write_interrupted (client : i2c_client) (addr val : Nat)
    (h : lock_interrupted client 0) :
    fd6551_write client addr val =
      ({ client with
          clientdata := { client.clientdata with
            update_lock := { client.clientdata.update_lock with
              calls := client.clientdata.update_lock.calls + 1 } } }, -EAGAIN) := by
  unfold lock_interrupted at h
  rw [Nat.add_zero] at h
  simp [fd6551_write, mutex_lock_interruptible, h]

/-- With the lock acquired `fd6551_write` issues its transfer, restores the bus
address from `data->i2c_addr`, drops the lock and returns 0. -/
theorem fd6551_write_acquired (client : i2c_client) (addr val : Nat)
    (h : ¬ lock_interrupted client 0) :
    fd6551_write client addr val =
      ({ addr := client.clientdata.i2c_addr,
         clientdata :=
           { update_lock :=
               { held := false, calls := client.clientdata.update_lock.calls + 1,
                 outcome := client.clientdata.update_lock.outcome },
             i2c_addr := client.clientdata.i2c_addr },
         sent := client.sent ++ [⟨u8 addr, [u8 val], I2C_M_IGNORE_NAK⟩],
         outcome := client.outcome }, 0) := by
  unfold lock_interrupted at h
  rw [Nat.add_zero] at h
  simp [fd6551_write, mutex_lock_interruptible, mutex_unlock, i2c_transfer_buffer_flags, h]

/-- C7: on a client whose bus address is the one recorded at probe, an interrupted
lock acquisition makes `fd6551_write` return -EAGAIN with no transfer and the bus
address unchanged; otherwise exactly one one-byte transfer carrying `val` is issued
while the bus address is `addr`, and on return the bus address is the recorded one. -/
theorem fd6551_write_frame (client : i2c_client) (addr val : Nat)
    (haddr : addr < 256) (hval : val < 256)
    (hprobe : client.addr = client.clientdata.i2c_addr) :
    (lock_interrupted client 0 →
      (fd6551_write client addr val).2 = -EAGAIN ∧
      (fd6551_write client addr val).1.sent = client.sent ∧
      (fd6551_write client addr val).1.addr = client.addr) ∧
    (¬ lock_interrupted client 0 →
      (fd6551_write client addr val).1.sent =
        client.sent ++ [⟨addr, [val], I2C_M_IGNORE_NAK⟩] ∧
      (fd6551_write client addr val).1.addr = client.clientdata.i2c_addr ∧
      (fd6551_write client addr val).1.addr = client.addr ∧
      (fd6551_write client addr val).1.clientdata.i2c_addr = client.clientdata.i2c_addr) := by
  have ha : u8 addr = addr := Nat.mod_eq_of_lt haddr
  have hv : u8 val = val := Nat.mod_eq_of_lt hval
  constructor
  · intro h
    rw [fd6551_write_interrupted client addr val h]
    exact ⟨rfl, rfl, rfl⟩
  · intro h
    rw [fd6551_write_acquired client addr val h, ha, hv]
    exact ⟨rfl, rfl, hprobe.symm, rfl⟩

/-- Witness for C7: writing 0x3F to register 0x34 of the probed FD6551 at 0x24 issues
one transfer at bus address 0x34 and leaves the client at 0x24; with the lock
interrupted nothing is sent. -/
theorem fd6551_write_frame_witness :
    ((fd6551_write fd6551_client_ok 0x34 0x3F).1.sent = [⟨0x34, [0x3F], I2C_M_IGNORE_NAK⟩] ∧
      (fd6551_write fd6551_client_ok 0x34 0x3F).1.addr = 0x24) ∧
    ((fd6551_write fd6551_client_intr 0x34 0x3F).2 = -EAGAIN ∧
      (fd6551_write fd6551_client_intr 0x34 0x3F).1.sent = [] ∧
      (fd6551_write fd6551_client_intr 0x34 0x3F).1.addr = 0x24) := by
  constructor
  · have h := (fd6551_write_frame fd6551_client_ok 0x34 0x3F (by decide) (by decide)
      (by decide)).2 (by decide)
    exact ⟨h.1, h.2.1⟩
  · exact (fd6551_write_frame fd6551_client_intr 0x34 0x3F (by decide) (by decide)
      (by decide)).1 (by decide)

/-! ## Claims on the digit writes of the display layer -/

/-- `u8` leaves a value below 256 alone. -/
theorem u8_of_lt (x : Nat) (h : x < 256) : u8 x = x := Nat.mod_eq_of_lt h

/-- `u8` yields a byte. -/
theorem u8_lt (x : Nat) : u8 x < 256 := Nat.mod_lt _ (by decide)

/-- The byte `digits_store` computes fits the `u8 val` parameter of `fd6551_write`. -/
theorem digit_val_lt (b : seg7_bits) (map_to_seg7 : Int → Int) (flipped : Bool)
    (buf : Nat → Int) (i : Nat) : digit_val b map_to_seg7 flipped buf i < 256 := by
  unfold digit_val
  cases flipped
  · simp only [Bool.false_eq_true, if_false]
    unfold u8_of_int
    omega
  · simp only [if_true]
    unfold flip_seg7
    exact u8_lt _

/-- While no lock acquisition is interrupted the loop of `digits_store` runs to its
end and has issued one transfer per digit, in order. -/
theorem digits_store_loop_ok (b : seg7_bits) (map_to_seg7 : Int → Int) (buf : Nat → Int) :
    ∀ (n i : Nat) (d : seg7disp_data),
      (∀ j, j < n → ¬ lock_interrupted d.controller j) →
      (digits_store_loop b map_to_seg7 buf n i d).2 = none ∧
      (digits_store_loop b map_to_seg7 buf n i d).1.controller.sent =
        d.controller.sent ++
          (List.range n).map (fun j => digit_xfer b map_to_seg7 d buf (i + j)) := by
  intro n
  induction n with
  | zero => intro i d _; simp [digits_store_loop]
  | succ n ih =>
    intro i d h
    have h0 := h 0 (Nat.succ_pos n)
    have hw := fd6551_write_acquired d.controller (u8 (d.digit_addrs i))
      (digit_val b map_to_seg7 d.flipped buf i) h0
    have hidem : u8 (u8 (d.digit_addrs i)) = u8 (d.digit_addrs i) := u8_of_lt _ (u8_lt _)
    have hval := u8_of_lt _ (digit_val_lt b map_to_seg7 d.flipped buf i)
    rw [hidem, hval] at hw
    have hnext : ∀ j, j < n → ¬ lock_interrupted
        ({ d with controller := (fd6551_write d.controller (u8 (d.digit_addrs i))
          (digit_val b map_to_seg7 d.flipped buf i)).1 } : seg7disp_data).controller j := by
      intro j hj
      have := h (j + 1) (Nat.succ_lt_succ hj)
      rw [hw]
      unfold lock_interrupted at this ⊢
      simpa [Nat.add_assoc, Nat.add_comm 1 j] using this
    have hrec := ih (i + 1) _ hnext
    rw [digits_store_loop]
    simp only [hw] at hrec ⊢
    simp only [lt_self_iff_false, if_false]
    refine ⟨hrec.1, ?_⟩
    rw [hrec.2, List.range_succ_eq_map, List.map_cons, List.map_map, List.append_assoc]
    simp [digit_xfer, Function.comp_def, Nat.add_assoc, Nat.add_comm 1]

/-- When the lock acquisition of digit `k` is the first to be interrupted, the loop
of `digits_store` returns -EAGAIN from there, having issued the transfers of the
digits before `k` and no other. -/
theorem digits_store_loop_fail (b : seg7_bits) (map_to_seg7 : Int → Int) (buf : Nat → Int) :
    ∀ (n i : Nat) (d : seg7disp_data) (k : Nat), k < n →
      (∀ j, j < k → ¬ lock_interrupted d.controller j) →
      lock_interrupted d.controller k →
      (digits_store_loop b map_to_seg7 buf n i d).2 = some (-EAGAIN) ∧
      (digits_store_loop b map_to_seg7 buf n i d).1.controller.sent =
        d.controller.sent ++
          (List.range k).map (fun j => digit_xfer b map_to_seg7 d buf (i + j)) := by
  intro n
  induction n with
  | zero => intro i d k hk; omega
  | succ n ih =>
    intro i d k hk hbefore hat
    cases k with
    | zero =>
      have hw := fd6551_write_interrupted d.controller (u8 (d.digit_addrs i))
        (digit_val b map_to_seg7 d.flipped buf i) hat
      rw [digits_store_loop]
      simp only [hw]
      have hneg : (-EAGAIN : Int) < 0 := by decide
      simp [hneg]
    | succ k =>
      have h0 := hbefore 0 (Nat.succ_pos k)
      have hw := fd6551_write_acquired d.controller (u8 (d.digit_addrs i))
        (digit_val b map_to_seg7 d.flipped buf i) h0
      have hidem : u8 (u8 (d.digit_addrs i)) = u8 (d.digit_addrs i) := u8_of_lt _ (u8_lt _)
      have hval := u8_of_lt _ (digit_val_lt b map_to_seg7 d.flipped buf i)
      rw [hidem, hval] at hw
      have hnext : ∀ j, j < k → ¬ lock_interrupted
          ({ d with controller := (fd6551_write d.controller (u8 (d.digit_addrs i))
            (digit_val b map_to_seg7 d.flipped buf i)).1 } : seg7disp_data).controller j := by
        intro j hj
        have := hbefore (j + 1) (Nat.succ_lt_succ hj)
        rw [hw]
        unfold lock_interrupted at this ⊢
        simpa [Nat.add_assoc, Nat.add_comm 1 j] using this
      have hat1 : lock_interrupted
          ({ d with controller := (fd6551_write d.controller (u8 (d.digit_addrs i))
            (digit_val b map_to_seg7 d.flipped buf i)).1 } : seg7disp_data).controller k := by
        rw [hw]
        unfold lock_interrupted at hat ⊢
        simpa [Nat.add_assoc, Nat.add_comm 1 k] using hat
      have hrec := ih (i + 1) _ k (Nat.lt_of_succ_lt_succ hk) hnext hat1
      rw [digits_store_loop]
      simp only [hw] at hrec ⊢
      simp only [lt_self_iff_false, if_false]
      refine ⟨hrec.1, ?_⟩
      rw [hrec.2, List.range_succ_eq_map, List.map_cons, List.map_map, List.append_assoc]
      simp [digit_xfer, Function.comp_def, Nat.add_assoc, Nat.add_comm 1]

/-- What the I2C core answers does not reach the caller of `fd6551_write`: neither
the status nor anything but the `outcome` member of the client depends on it. -/
theorem fd6551_write_outcome_indep (client : i2c_client) (addr val : Nat)
    (outcome : Nat → Int) :
    fd6551_write { client with outcome := outcome } addr val =
      ({ (fd6551_write client addr val).1 with outcome := outcome },
        (fd6551_write client addr val).2) := by
  by_cases h : lock_interrupted client 0
  · have h' : lock_interrupted { client with outcome := outcome } 0 := h
    rw [fd6551_write_interrupted _ addr val h, fd6551_write_interrupted _ addr val h']
  · have h' : ¬ lock_interrupted { client with outcome := outcome } 0 := h
    rw [fd6551_write_acquired _ addr val h, fd6551_write_acquired _ addr val h']

/-- The value the loop of `digits_store` returns does not depend on what the I2C core
answers. -/
theorem digits_store_loop_outcome_indep (b : seg7_bits) (map_to_seg7 : Int → Int)
    (buf : Nat → Int) (outcome : Nat → Int) :
    ∀ (n i : Nat) (d : seg7disp_data),
      (digits_store_loop b map_to_seg7 buf n i
        { d with controller := { d.controller with outcome := outcome } }).2 =
      (digits_store_loop b map_to_seg7 buf n i d).2 := by
  intro n
  induction n with
  | zero => intro i d; simp [digits_store_loop]
  | succ n ih =>
    intro i d
    rw [digits_store_loop, digits_store_loop]
    simp only [fd6551_write_outcome_indep]
    by_cases hrc : (fd6551_write d.controller (u8 (d.digit_addrs i))
        (digit_val b map_to_seg7 d.flipped buf i)).2 < 0
    · simp only [hrc, if_true]
    · simp only [hrc, if_false]
      exact ih (i + 1) { d with controller := (fd6551_write d.controller
        (u8 (d.digit_addrs i)) (digit_val b map_to_seg7 d.flipped buf i)).1 }

/-- C8 (as the code has it): `fd6551_write` returns -EAGAIN when the lock acquisition
is interrupted and 0 otherwise, whatever the one-byte I2C transfer reports; so the
value `digits_store` returns does not depend on the outcome of any bus transfer. -/
theorem fd6551_write_status (b : seg7_bits) (map_to_seg7 : Int → Int)
    (client : i2c_client) (addr val : Nat) (outcome : Nat → Int)
    (d : seg7disp_data) (buf : Nat → Int) (len : Nat) :
    (fd6551_write client addr val).2 = (if lock_interrupted client 0 then -EAGAIN else 0) ∧
    (fd6551_write { client with outcome := outcome } addr val).2 =
      (fd6551_write client addr val).2 ∧
    (digits_store b map_to_seg7
        { d with controller := { d.controller with outcome := outcome } } buf len).2 =
      (digits_store b map_to_seg7 d buf len).2 := by
  refine ⟨?_, ?_, ?_⟩
  · by_cases h : lock_interrupted client 0
    · rw [fd6551_write_interrupted client addr val h, if_pos h]
    · rw [fd6551_write_acquired client addr val h, if_neg h]
  · rw [fd6551_write_outcome_indep]
  · have h := digits_store_loop_outcome_indep b map_to_seg7 buf outcome d.ndigits 0 d
    unfold digits_store
    revert h
    generalize digits_store_loop b map_to_seg7 buf d.ndigits 0 d = r
    generalize digits_store_loop b map_to_seg7 buf
      ({ d with controller := { d.controller with outcome := outcome } } : seg7disp_data).ndigits
      0 { d with controller := { d.controller with outcome := outcome } } = r'
    intro h
    obtain ⟨d1, o1⟩ := r
    obtain ⟨d2, o2⟩ := r'
    simp only at h
    subst h
    cases o2 <;> rfl

/-- Counterexample to C8: on a bus that answers -5 (an I/O error) to every
transfer,
`fd6551_write` still returns 0, and `digits_store` writes both digits of "12" and
returns the input length. -/
theorem fd6551_write_drops_transfer_error :
    (i2c_transfer_buffer_flags { fd6551_client_eio with addr := 0x34 } [0x06]
      I2C_M_IGNORE_NAK).2 = -5 ∧
    (fd6551_write fd6551_client_eio 0x34 0x06).2 = 0 ∧
    ¬ (fd6551_write fd6551_client_eio 0x34 0x06).2 < 0 ∧
    (digits_store seg7_bits_linux map_to_seg7_sample
      (seg7disp_sample fd6551_client_eio 0x35) buf_12 2).2 = 2 ∧
    (digits_store seg7_bits_linux map_to_seg7_sample
      (seg7disp_sample fd6551_client_eio 0x35) buf_12 2).1.controller.sent =
      [⟨0x34, [0x06], I2C_M_IGNORE_NAK⟩, ⟨0x35, [0x5B], I2C_M_IGNORE_NAK⟩] := by
  refine ⟨by decide, by decide, by decide, by decide, by decide⟩

/-- C9 (as the code has it): when the lock acquisition of digit `k` is the first to
be interrupted, so that the call of `fd6551_write` for digit `k` is the first to
fail, `digits_store` returns that error; the transfers issued are those of the
digits `0..k-1`, in order, digit `i` going to the low eight bits of `digit_addrs[i]`
with the byte `map_to_seg7` gives for `buf[i]`, mirrored when flipped, and nothing is
issued for the digits from `k` on.  When no call fails, `ndigits` transfers are issued
and the input length is returned. -/
theorem digits_store_stops_at_first_failure (b : seg7_bits) (map_to_seg7 : Int → Int)
    (d : seg7disp_data) (buf : Nat → Int) (len : Nat) (k : Nat) :
    (k < d.ndigits → (∀ j, j < k → ¬ lock_interrupted d.controller j) →
      lock_interrupted d.controller k →
      (digits_store b map_to_seg7 d buf len).2 = -EAGAIN ∧
      (digits_store b map_to_seg7 d buf len).1.controller.sent =
        d.controller.sent ++ (List.range k).map (fun i =>
          (⟨d.digit_addrs i % 256,
            [if d.flipped then flip_seg7 b (u8_of_int (map_to_seg7 (buf i)))
             else u8_of_int (map_to_seg7 (buf i))],
            I2C_M_IGNORE_NAK⟩ : i2c_xfer))) ∧
    ((∀ j, j < d.ndigits → ¬ lock_interrupted d.controller j) →
      (digits_store b map_to_seg7 d buf len).2 = (len : Int) ∧
      (digits_store b map_to_seg7 d buf len).1.controller.sent =
        d.controller.sent ++ (List.range d.ndigits).map (fun i =>
          (⟨d.digit_addrs i % 256,
            [if d.flipped then flip_seg7 b (u8_of_int (map_to_seg7 (buf i)))
             else u8_of_int (map_to_seg7 (buf i))],
            I2C_M_IGNORE_NAK⟩ : i2c_xfer))) := by
  constructor
  · intro hk hbefore hat
    have h := digits_store_loop_fail b map_to_seg7 buf d.ndigits 0 d k hk hbefore hat
    unfold digits_store
    revert h
    generalize digits_store_loop b map_to_seg7 buf d.ndigits 0 d = r
    intro h
    obtain ⟨d1, o1⟩ := r
    obtain ⟨h1, h2⟩ := h
    simp only at h1 h2
    subst h1
    simp only [h2, true_and]
    simp [digit_xfer, digit_val, u8]
  · intro hall
    have h := digits_store_loop_ok b map_to_seg7 buf d.ndigits 0 d hall
    unfold digits_store
    revert h
    generalize digits_store_loop b map_to_seg7 buf d.ndigits 0 d = r
    intro h
    obtain ⟨d1, o1⟩ := r
    obtain ⟨h1, h2⟩ := h
    simp only at h1 h2
    subst h1
    simp only [h2, true_and]
    simp [digit_xfer, digit_val, u8]

/-- Witness for C9: with the second lock acquisition interrupted, `digits_store` of
"12" returns -EAGAIN after the transfer of the first digit alone; with no
interruption both digits are written and the length is returned. -/
theorem digits_store_stops_at_first_failure_witness :
    ((digits_store seg7_bits_linux map_to_seg7_sample
        (seg7disp_sample fd6551_client_intr_second 0x35) buf_12 2).2 = -EAGAIN ∧
      (digits_store seg7_bits_linux map_to_seg7_sample
        (seg7disp_sample fd6551_client_intr_second 0x35) buf_12 2).1.controller.sent =
        [⟨0x34, [0x06], I2C_M_IGNORE_NAK⟩]) ∧
    ((digits_store seg7_bits_linux map_to_seg7_sample
        (seg7disp_sample fd6551_client_ok 0x35) buf_12 2).2 = 2 ∧
      (digits_store seg7_bits_linux map_to_seg7_sample
        (seg7disp_sample fd6551_client_ok 0x35) buf_12 2).1.controller.sent =
        [⟨0x34, [0x06], I2C_M_IGNORE_NAK⟩, ⟨0x35, [0x5B], I2C_M_IGNORE_NAK⟩]) :=
  ⟨(digits_store_stops_at_first_failure seg7_bits_linux map_to_seg7_sample
      (seg7disp_sample fd6551_client_intr_second 0x35) buf_12 2 1).1
      (by decide) (by decide) (by decide),
   (digits_store_stops_at_first_failure seg7_bits_linux map_to_seg7_sample
      (seg7disp_sample fd6551_client_ok 0x35) buf_12 2 0).2 (by decide)⟩

/-- Counterexample to C9 as stated: with the second digit at address 0x135 in the
table and no failing write, the second transfer goes to bus address 0x35, so the
transfers are not the ones addressed to `digit_addrs[i]`. -/
theorem digits_store_truncates_digit_addr :
    (seg7disp_sample fd6551_client_ok 0x135).digit_addrs 1 = 0x135 ∧
    (digits_store seg7_bits_linux map_to_seg7_sample
      (seg7disp_sample fd6551_client_ok 0x135) buf_12 2).2 = 2 ∧
    (digits_store seg7_bits_linux map_to_seg7_sample
      (seg7disp_sample fd6551_client_ok 0x135) buf_12 2).1.controller.sent =
      [⟨0x34, [0x06], I2C_M_IGNORE_NAK⟩, ⟨0x35, [0x5B], I2C_M_IGNORE_NAK⟩] ∧
    (digits_store seg7_bits_linux map_to_seg7_sample
      (seg7disp_sample fd6551_client_ok 0x135) buf_12 2).1.controller.sent ≠
      (List.range 2).map (fun i =>
        (⟨(seg7disp_sample fd6551_client_ok 0x135).digit_addrs i,
          [u8_of_int (map_to_seg7_sample (buf_12 i))], I2C_M_IGNORE_NAK⟩ : i2c_xfer)) := by
  refine ⟨by decide, by decide, by decide, by decide⟩

/-! ## Claims on the segment mirror -/

/-- A test of one bit against zero is the bit itself. -/
theorem and_bit_ne_zero (x a : Nat) : (x &&& 1 <<< a ≠ 0) ↔ x.testBit a = true := by
  rw [Nat.one_shiftLeft]
  constructor
  · intro h
    by_contra hx
    apply h
    apply Nat.eq_of_testBit_eq
    intro j
    rw [Nat.testBit_and, Nat.testBit_two_pow, Nat.zero_testBit]
    by_cases e : a = j
    · subst e; simp [hx]
    · simp [e]
  · intro h he
    have hbit : (x &&& 2 ^ a).testBit a = true := by
      rw [Nat.testBit_and, Nat.testBit_two_pow]; simp [h]
    rw [he, Nat.zero_testBit] at hbit
    exact Bool.noConfusion hbit

/-- Bits of one conditional term of `flip_seg7`. -/
theorem seg_move_testBit (x a d j : Nat) :
    (if x &&& 1 <<< a ≠ 0 then 1 <<< d else 0).testBit j = (x.testBit a && decide (d = j)) := by
  by_cases h : x.testBit a = true
  · rw [if_pos ((and_bit_ne_zero x a).2 h), Nat.one_shiftLeft, Nat.testBit_two_pow, h]
    simp
  · rw [if_neg (fun hc => h ((and_bit_ne_zero x a).1 hc))]
    simp [h]

/-- Bits of `1 << g`. -/
theorem one_shl_testBit (g j : Nat) : (1 <<< g).testBit j = decide (g = j) := by
  rw [Nat.one_shiftLeft, Nat.testBit_two_pow]

/-- Bit `j` of `flip_seg7 b v`, for any layout. -/
theorem flip_seg7_testBit (b : seg7_bits) (v j : Nat) :
    (flip_seg7 b v).testBit j =
      (decide (j < 8) &&
        (((u8 v).testBit b.BIT_SEG7_A && decide (b.BIT_SEG7_D = j)) ||
         ((u8 v).testBit b.BIT_SEG7_B && decide (b.BIT_SEG7_E = j)) ||
         ((u8 v).testBit b.BIT_SEG7_C && decide (b.BIT_SEG7_F = j)) ||
         ((u8 v).testBit b.BIT_SEG7_D && decide (b.BIT_SEG7_A = j)) ||
         ((u8 v).testBit b.BIT_SEG7_E && decide (b.BIT_SEG7_B = j)) ||
         ((u8 v).testBit b.BIT_SEG7_F && decide (b.BIT_SEG7_C = j)) ||
         ((u8 v).testBit b.BIT_SEG7_G && decide (b.BIT_SEG7_G = j)))) := by
  unfold flip_seg7
  simp only [Nat.zero_or]
  generalize u8 v = w
  simp only [u8, Nat.testBit_mod_two_pow, Nat.testBit_or, seg_move_testBit, Nat.testBit_and,
    Nat.zero_testBit, one_shl_testBit]
  by_cases hj : j < 8 <;> by_cases hg : b.BIT_SEG7_G = j <;> simp [hj, hg]

/-- On a well-formed layout the positions are exactly the numbers below 7. -/
theorem wellformed_mem (b : seg7_bits) (h : b.wellformed) (j : Nat) :
    j < 7 ↔ (j = b.BIT_SEG7_A ∨ j = b.BIT_SEG7_B ∨ j = b.BIT_SEG7_C ∨ j = b.BIT_SEG7_D ∨
      j = b.BIT_SEG7_E ∨ j = b.BIT_SEG7_F ∨ j = b.BIT_SEG7_G) := by
  have hm : j ∈ b.positions ↔ j ∈ List.range 7 := List.Perm.mem_iff h
  rw [List.mem_range] at hm
  rw [← hm]
  simp [seg7_bits.positions]

/-- On a well-formed layout no position is used twice. -/
theorem wellformed_nodup (b : seg7_bits) (h : b.wellformed) : b.positions.Nodup :=
  (List.Perm.nodup_iff h).2 (List.nodup_range 7)

/-- The kernel layout is well-formed. -/
theorem seg7_bits_linux_wellformed : seg7_bits_linux.wellformed :=
  List.Perm.refl _

/-- C10: for every 7-bit pattern `v`, `flip_seg7 (flip_seg7 v) = v`; `flip_seg7`
exchanges the bits of the segments A and D, B and E, C and F, and keeps G. -/
theorem flip_seg7_involution (b : seg7_bits) (hb : b.wellformed) (v : Nat) (hv : v ≤ 0x7F) :
    flip_seg7 b (flip_seg7 b v) = v ∧
    (flip_seg7 b v).testBit b.BIT_SEG7_D = v.testBit b.BIT_SEG7_A ∧
    (flip_seg7 b v).testBit b.BIT_SEG7_A = v.testBit b.BIT_SEG7_D ∧
    (flip_seg7 b v).testBit b.BIT_SEG7_E = v.testBit b.BIT_SEG7_B ∧
    (flip_seg7 b v).testBit b.BIT_SEG7_B = v.testBit b.BIT_SEG7_E ∧
    (flip_seg7 b v).testBit b.BIT_SEG7_F = v.testBit b.BIT_SEG7_C ∧
    (flip_seg7 b v).testBit b.BIT_SEG7_C = v.testBit b.BIT_SEG7_F ∧
    (flip_seg7 b v).testBit b.BIT_SEG7_G = v.testBit b.BIT_SEG7_G := by
  have hnd := wellformed_nodup b hb
  simp only [seg7_bits.positions, List.nodup_cons, List.mem_cons, List.mem_singleton,
    List.not_mem_nil, not_or, List.nodup_nil, and_true, not_false_eq_true] at hnd
  obtain ⟨⟨hab, hac, had, hae, haf, hag⟩, ⟨hbc, hbd, hbe, hbf, hbg⟩, ⟨hcd, hce, hcf, hcg⟩,
    ⟨hde, hdf, hdg⟩, ⟨hef, heg⟩, hfg⟩ := hnd
  have hA : b.BIT_SEG7_A < 7 := (wellformed_mem b hb _).2 (by simp)
  have hB : b.BIT_SEG7_B < 7 := (wellformed_mem b hb _).2 (by simp)
  have hC : b.BIT_SEG7_C < 7 := (wellformed_mem b hb _).2 (by simp)
  have hD : b.BIT_SEG7_D < 7 := (wellformed_mem b hb _).2 (by simp)
  have hE : b.BIT_SEG7_E < 7 := (wellformed_mem b hb _).2 (by simp)
  have hF : b.BIT_SEG7_F < 7 := (wellformed_mem b hb _).2 (by simp)
  have hG : b.BIT_SEG7_G < 7 := (wellformed_mem b hb _).2 (by simp)
  have h8 : ∀ x, x < 7 → x < 8 := fun x hx => by omega
  have hfl : flip_seg7 b v < 256 := by unfold flip_seg7; exact u8_lt _
  have hv8 : u8 v = v := u8_of_lt v (by omega)
  refine ⟨?_, ?_, ?_, ?_, ?_, ?_, ?_, ?_⟩
  · apply Nat.eq_of_testBit_eq
    intro j
    rw [flip_seg7_testBit, u8_of_lt _ hfl]
    simp only [flip_seg7_testBit, hv8]
    by_cases hj : j < 7
    · rcases (wellformed_mem b hb j).1 hj with e | e | e | e | e | e | e <;> subst e <;>
        simp [*, Ne.symm]
    · have hvj : v.testBit j = false := by
        apply Nat.testBit_lt_two_pow
        calc v < 2 ^ 7 := by omega
          _ ≤ 2 ^ j := Nat.pow_le_pow_right (by decide) (by omega)
      have ne : ∀ x, x < 7 → ¬ x = j := fun x hx => by omega
      simp [hvj, ne _ hA, ne _ hB, ne _ hC, ne _ hD, ne _ hE, ne _ hF, ne _ hG]
  all_goals
    rw [flip_seg7_testBit, hv8]
    simp [*, Ne.symm]

/-- Witness for C10 on the kernel layout: the pattern of "1" (segments B and C)
mirrors to segments E and F and back. -/
theorem flip_seg7_involution_witness :
    seg7_bits_linux.wellformed ∧ 0x06 ≤ 0x7F ∧
    flip_seg7 seg7_bits_linux (flip_seg7 seg7_bits_linux 0x06) = 0x06 :=
  ⟨seg7_bits_linux_wellformed, by decide,
    (flip_seg7_involution seg7_bits_linux seg7_bits_linux_wellformed 0x06 (by decide)).1⟩

/-! ## Claims on the display control command -/

/-- The command byte of `tm1628_set_display_ctrl` for a level in 0..7. -/
theorem display_ctrl_cmd (on_ : Bool) (b : Nat) (hb : b ≤ 7) :
    u8 ((if on_ then u8 (TM1628_CMD_DISPLAY_CTRL ||| TM1628_DISPLAY_CTRL_DISPLAY_ON)
         else TM1628_CMD_DISPLAY_CTRL) ||| u8 b) =
      0x80 ||| (if on_ then 0x08 else 0) ||| b := by
  cases on_ <;> interval_cases b <;> decide

/-- The level check of `tm1628_set_display_ctrl` passes exactly the bytes 0..7. -/
theorem display_ctrl_guard (p : Nat) (hp : p < 256) :
    (u8 p &&& not64 TM1628_DISPLAY_CTRL_PW_MASK ≠ 0) ↔ 7 < p := by
  revert p
  set_option maxRecDepth 100000 in decide

/-- A level below 256 passes unchanged from the `int` brightness to the `u8`
parameter. -/
theorem u8_of_int_natCast (b : Nat) (hb : b < 256) : u8_of_int (b : Int) = b := by
  unfold u8_of_int
  omega

/-- C13: for a level `b` in 0..7, `tm1628_set_display_ctrl` submits one message of
one byte, `0x80 | (0x08 if on) | b`, and returns what the bus answers; two different
(on, level) pairs give different bytes; for an 8-bit `pwm_index` above 7 it returns
-EINVAL and submits nothing.  `tm1628_bl_update_status` sends that byte for the
backlight brightness, with the display on unless the blank flag is set. -/
theorem tm1628_set_display_ctrl_levels (spi : spi_device) (on1 on2 : Bool) (b1 b2 p : Nat)
    (fbblank : Nat) (s : tm1628) (state : Nat)
    (hb1 : b1 ≤ 7) (hb2 : b2 ≤ 7) (hp : 7 < p ∧ p < 256) :
    (tm1628_set_display_ctrl spi on1 b1).1.sent =
      spi.sent ++ [[[0x80 ||| (if on1 then 0x08 else 0) ||| b1]]] ∧
    (tm1628_set_display_ctrl spi on1 b1).2 = spi.outcome spi.sent.length ∧
    ((0x80 ||| (if on1 then 0x08 else 0) ||| b1) = (0x80 ||| (if on2 then 0x08 else 0) ||| b2) →
      on1 = on2 ∧ b1 = b2) ∧
    tm1628_set_display_ctrl spi on1 p = (spi, -EINVAL) ∧
    (tm1628_bl_update_status fbblank s state (b1 : Int)).1.spi.sent =
      s.spi.sent ++ [[[0x80 ||| (if state &&& fbblank = 0 then 0x08 else 0) ||| b1]]] := by
  have hg1 : ¬ (u8 b1 &&& not64 TM1628_DISPLAY_CTRL_PW_MASK ≠ 0) := by
    rw [display_ctrl_guard b1 (by omega)]; omega
  have hgp : u8 p &&& not64 TM1628_DISPLAY_CTRL_PW_MASK ≠ 0 :=
    (display_ctrl_guard p hp.2).2 hp.1
  have hcmd := display_ctrl_cmd on1 b1 hb1
  have hsent : ∀ (sp : spi_device) (o : Bool), (tm1628_set_display_ctrl sp o b1).1.sent =
      sp.sent ++ [[[0x80 ||| (if o then 0x08 else 0) ||| b1]]] := by
    intro sp o
    unfold tm1628_set_display_ctrl
    simp only [if_neg hg1, display_ctrl_cmd o b1 hb1, spi_write, spi_sync_transfer]
  refine ⟨hsent spi on1, ?_, ?_, ?_, ?_⟩
  · unfold tm1628_set_display_ctrl
    simp only [if_neg hg1, spi_write, spi_sync_transfer]
  · cases on1 <;> cases on2 <;> interval_cases b1 <;> interval_cases b2 <;> decide
  · unfold tm1628_set_display_ctrl
    simp only [if_pos hgp]
  · unfold tm1628_bl_update_status
    rw [u8_of_int_natCast b1 (by omega)]
    simp only [hsent]
    by_cases hst : state &&& fbblank = 0 <;> simp [hst]

/-- Witness for C13: switching the display on at level 5 sends the byte 0x8D; level 8
is refused. -/
theorem tm1628_set_display_ctrl_levels_witness :
    (tm1628_set_display_ctrl spi_idle true 5).1.sent = [[[0x8D]]] ∧
    (tm1628_set_display_ctrl spi_idle true 5).2 = 0 ∧
    (tm1628_set_display_ctrl spi_idle true 8).2 = -EINVAL ∧
    (tm1628_set_display_ctrl spi_idle true 8).1.sent = [] := by
  have h := tm1628_set_display_ctrl_levels spi_idle true false 5 3 8 BL_CORE_FBBLANK_linux
    tm1628_fresh 0 (by decide) (by decide) (by decide)
  refine ⟨h.1, h.2.1, ?_, ?_⟩
  · rw [h.2.2.2.1]
  · rw [h.2.2.2.1]; rfl

/-! ## Claims on the bitmap length and the probe sequence -/

/-- The bitmap length `tm1628_spi_probe` computes depends on the variant alone. -/
theorem probe_data_len_of_info (s : tm1628) :
    (s.info = tm1628_info_tm1628 → tm1628_probe_data_len s = 14) ∧
    (s.info = fd628_info → tm1628_probe_data_len s = 14) ∧
    (s.info = ht16515_info → tm1628_probe_data_len s = 36) ∧
    (s.info = aip1618_info → tm1628_probe_data_len s = 14) := by
  refine ⟨?_, ?_, ?_, ?_⟩ <;> intro h <;>
    simp only [tm1628_probe_data_len, tm1628_max_seg, tm1628_max_grid, h] <;> decide

/-- C16: the bitmap length is 14 for `tm1628_info`, `fd628_info` and `aip1618_info`
but 36 for `ht16515_info`; `tm1628_write_data` refuses 36 bytes with -EINVAL, and a
probe of an HT16515 in which everything else succeeds ends there, after the display
control and address bytes, while the same probe of a TM1628 goes through. -/
theorem ht16515_probe_bitmap_write_rejected :
    [tm1628_info_tm1628, fd628_info, ht16515_info, aip1618_info].map
      (fun info => tm1628_probe_data_len { tm1628_fresh with info := info }) =
      [14, 14, 36, 14] ∧
    (tm1628_write_data spi_idle (fun _ => 0) 36).2 = -EINVAL ∧
    (tm1628_write_data spi_idle (fun _ => 0) 36).1.sent = [] ∧
    (tm1628_spi_probe BL_CORE_FBBLANK_linux spi_idle
        (tm1628_probe_env_ok ht16515_info 4 [])).map
      (fun r => (r.ret, r.s.data_len, r.s.mode_index, r.s.spi.sent)) =
      some (-EINVAL, 36, 0, [[[0x80]], [[0xC0]]]) ∧
    (tm1628_spi_probe BL_CORE_FBBLANK_linux spi_idle
        (tm1628_probe_env_ok tm1628_info_tm1628 4 [])).map
      (fun r => (r.ret, r.s.data_len, r.s.mode_index, r.s.spi.sent)) =
      some (0, 14, 0, [[[0x80]], [[0xC0]], [[0x40], List.replicate 14 0], [[0x00]],
        [[0x88]]]) := by
  refine ⟨by decide, by decide, by decide, by decide, by decide⟩

/-- When the mode loop of `tm1628_spi_probe` selects a mode, its loop variable is
left at the selected index. -/
theorem mode_loop_index (modes : List tm1628_mode) (grids : Nat) :
    ∀ (n i : Nat) (m : Int) (j : Nat),
      tm1628_mode_loop modes grids n i = some (m, j) → m ≠ -1 → m = (j : Int) := by
  intro n
  induction n with
  | zero =>
    intro i m j h hm
    simp only [tm1628_mode_loop, Option.some.injEq, Prod.mk.injEq] at h
    exact absurd h.1.symm hm
  | succ n ih =>
    intro i m j h hm
    rw [tm1628_mode_loop] at h
    cases hmi : modes[i]? with
    | none => rw [hmi] at h; exact Option.noConfusion h
    | some md =>
      rw [hmi] at h
      simp only at h
      split at h
      · exact ih (i + 1) m j h hm
      · simp only [Option.some.injEq, Prod.mk.injEq] at h
        rw [← h.1, ← h.2]

/-- The mode loop with its loop variable selects the mode `tm1628_mode_scan` does. -/
theorem mode_loop_fst (modes : List tm1628_mode) (grids : Nat) :
    ∀ (n i : Nat),
      (tm1628_mode_loop modes grids n i).map Prod.fst = tm1628_mode_scan modes grids n i := by
  intro n
  induction n with
  | zero => intro i; rfl
  | succ n ih =>
    intro i
    rw [tm1628_mode_loop, tm1628_mode_scan]
    cases hmi : modes[i]? with
    | none => rfl
    | some md =>
      simp only
      split
      · exact ih (i + 1)
      · rfl

/-- The child loop of `tm1628_spi_probe` hands out consecutive slots, counted on
from the value `i` has when the loop starts. -/
theorem probe_children_slots (s : tm1628) :
    ∀ (children : List fwnode_handle) (l : tm1628_probe_locals)
      (r : tm1628_probe_locals × Bool),
      tm1628_probe_children s children l = some r →
      ∃ k, r.1.i = l.i + k ∧ r.1.slots = l.slots ++ (List.range k).map (fun j => l.i + j) := by
  intro children
  induction children with
  | nil =>
    intro l r h
    simp only [tm1628_probe_children, Option.some.injEq] at h
    subst h
    exact ⟨0, rfl, by simp⟩
  | cons child rest ih =>
    intro l r h
    rw [tm1628_probe_children] at h
    by_cases hlen : child.reg.length ≥ 2
    · simp only [hlen, if_true, ne_eq, not_true_eq_false, if_false] at h
      by_cases h2 : child.reg.length = 2
      · simp only [h2, if_true] at h
        cases hreg : tm1628_register_led s child (child.reg.getD 0 0) (child.reg.getD 1 0) with
        | none => rw [hreg] at h; exact Option.noConfusion h
        | some ret =>
          rw [hreg] at h
          simp only at h
          split at h
          · simp only [Option.some.injEq] at h
            subst h
            have hr1 : List.range 1 = [0] := by decide
            exact ⟨1, rfl, by simp [hr1]⟩
          · obtain ⟨k, hk1, hk2⟩ := ih _ r h
            refine ⟨k + 1, ?_, ?_⟩
            · rw [hk1]; simp only; omega
            · rw [hk2]
              simp only [List.append_assoc, List.singleton_append]
              rw [List.range_succ_eq_map, List.map_cons, List.map_map]
              simp [Function.comp_def, Nat.add_assoc, Nat.add_comm 1]
      · simp only [h2, if_false] at h
        obtain ⟨k, hk1, hk2⟩ := ih _ r h
        exact ⟨k, hk1, hk2⟩
    · simp only [hlen, if_false, ne_eq] at h
      by_cases he : child.reg_err = 0
      · have h2 : ¬ child.reg.length = 2 := by omega
        simp only [he, not_true_eq_false, if_false, h2] at h
        obtain ⟨k, hk1, hk2⟩ := ih _ r h
        exact ⟨k, hk1, hk2⟩
      · simp only [he, not_false_eq_true, if_true, Option.some.injEq] at h
        subst h
        exact ⟨0, rfl, by simp⟩

/-- C15: with `#grids = <7>` probe selects mode 3, and the first child with a
two-cell `reg` is handed slot 3 of a `leds` array allocated for the one child node:
the child loop goes on from the value the mode loop left in `i`, so child number `k`
gets slot `mode_index + k`. -/
theorem probe_led_slot_starts_at_mode_index :
    (tm1628_spi_probe BL_CORE_FBBLANK_linux spi_idle
        (tm1628_probe_env_ok tm1628_info_tm1628 7 [⟨[1, 1], -EINVAL, 0⟩])).map
      (fun r => (r.ret, r.s.mode_index, r.leds, r.locals.slots, r.locals.num_leds)) =
      some (0, 3, 1, [3], 1) ∧
    (tm1628_spi_probe BL_CORE_FBBLANK_linux spi_idle
        (tm1628_probe_env_ok tm1628_info_tm1628 6
          [⟨[1, 1], -EINVAL, 0⟩, ⟨[7], -EINVAL, 0⟩])).map
      (fun r => (r.ret, r.s.mode_index, r.leds, r.locals.slots, r.locals.num_leds)) =
      some (-EINVAL, 2, 2, [2], 1) := by
  refine ⟨by decide, by decide⟩

/-! ## Claims on the state bitmap -/

/-- Bits of the complement of an `unsigned long`. -/
theorem not64_testBit (x j : Nat) :
    (not64 x).testBit j = (decide (j < 64) && !(decide (j < 64) && x.testBit j)) := by
  have hlt : x % 2 ^ 64 < 2 ^ 64 := Nat.mod_lt _ (by decide)
  have hform : not64 x = 2 ^ 64 - (x % 2 ^ 64 + 1) := by unfold not64; omega
  rw [hform, Nat.testBit_two_pow_sub_succ hlt, Nat.testBit_mod_two_pow]

/-- Bits 0..7 of a bitmap byte after `|= BIT(b)`. -/
theorem testBit_set_bit (d b j : Nat) (hj : j < 8) :
    (u8 (d ||| BIT b)).testBit j = (d.testBit j || decide (b = j)) := by
  unfold u8 BIT
  rw [Nat.testBit_mod_two_pow, Nat.testBit_or, one_shl_testBit]
  simp [hj]

/-- Bits 0..7 of a bitmap byte after `&= ~BIT(b)`. -/
theorem testBit_clear_bit (d b j : Nat) (hj : j < 8) :
    (u8 (d &&& not64 (BIT b))).testBit j = (d.testBit j && !decide (b = j)) := by
  have hj64 : j < 64 := by omega
  unfold u8 BIT
  rw [Nat.testBit_mod_two_pow, Nat.testBit_and, not64_testBit, one_shl_testBit]
  simp [hj, hj64]

/-- On the valid domain `tm1628_get_led` reports the addressed bit of the bitmap. -/
theorem get_led_formula (s : tm1628) (grid seg : Nat)
    (hg : 1 ≤ grid ∧ grid ≤ 7) (hs : 1 ≤ seg ∧ seg ≤ 16) :
    tm1628_get_led s grid seg =
      (0, some ((s.data ((grid - 1) * 2 + (if seg - 1 ≥ 8 then 1 else 0))).testBit
        ((seg - 1) % 8))) := by
  unfold tm1628_get_led
  rw [get_led_offset_formula grid seg hg hs]
  simp only [BIT, Prod.mk.injEq, Option.some.injEq, true_and]
  cases hb : (s.data ((grid - 1) * 2 + (if seg - 1 ≥ 8 then 1 else 0))).testBit ((seg - 1) % 8)
  · rw [decide_eq_false_iff_not]
    intro hne
    rw [(and_bit_ne_zero _ _).1 hne] at hb
    exact Bool.noConfusion hb
  · rw [decide_eq_true_iff]
    exact (and_bit_ne_zero _ _).2 hb

/-- On the valid domain `tm1628_set_led` rewrites the addressed byte and returns 0. -/
theorem set_led_formula (s : tm1628) (grid seg : Nat) (on_ : Bool)
    (hg : 1 ≤ grid ∧ grid ≤ 7) (hs : 1 ≤ seg ∧ seg ≤ 16) :
    tm1628_set_led s grid seg on_ =
      ({ s with
          data := (Function.update s.data
            ((grid - 1) * 2 + (if seg - 1 ≥ 8 then 1 else 0))
            (if on_ then
              u8 (s.data ((grid - 1) * 2 + (if seg - 1 ≥ 8 then 1 else 0)) |||
                BIT ((seg - 1) % 8))
             else
              u8 (s.data ((grid - 1) * 2 + (if seg - 1 ≥ 8 then 1 else 0)) &&&
                not64 (BIT ((seg - 1) % 8))))) }, 0) := by
  unfold tm1628_set_led
  rw [get_led_offset_formula grid seg hg hs]
  cases on_ <;> simp

/-- C14: for each variant, on a bitmap of the length probe computes, a valid
coordinate is addressed inside the bitmap, `tm1628_set_led` returns 0, the following
`tm1628_get_led` of that coordinate reports the value set, and `tm1628_get_led` of
any other valid coordinate reports what it reported before. -/
theorem tm1628_set_led_get_led (s : tm1628) (grid seg : Nat) (on_ : Bool)
    (hinfo : s.info = tm1628_info_tm1628 ∨ s.info = fd628_info ∨ s.info = ht16515_info ∨
      s.info = aip1618_info)
    (hlen : s.data_len = tm1628_probe_data_len s)
    (hg : 1 ≤ grid ∧ grid ≤ 7) (hs : 1 ≤ seg ∧ seg ≤ 16) :
    (∃ offset bit, tm1628_get_led_offset grid seg = (0, some (offset, bit)) ∧
      offset < s.data_len) ∧
    (tm1628_set_led s grid seg on_).2 = 0 ∧
    tm1628_get_led (tm1628_set_led s grid seg on_).1 grid seg = (0, some on_) ∧
    (∀ grid2 seg2, 1 ≤ grid2 ∧ grid2 ≤ 7 → 1 ≤ seg2 ∧ seg2 ≤ 16 →
      ¬ (grid2 = grid ∧ seg2 = seg) →
      tm1628_get_led (tm1628_set_led s grid seg on_).1 grid2 seg2 =
        tm1628_get_led s grid2 seg2) := by
  have hdl : 14 ≤ s.data_len := by
    obtain ⟨h1, h2, h3, h4⟩ := probe_data_len_of_info s
    rw [hlen]
    rcases hinfo with h | h | h | h
    · rw [h1 h]
    · rw [h2 h]
    · rw [h3 h]; decide
    · rw [h4 h]
  have hbit : (seg - 1) % 8 < 8 := Nat.mod_lt _ (by decide)
  refine ⟨⟨_, _, get_led_offset_formula grid seg hg hs, ?_⟩, ?_, ?_, ?_⟩
  · split <;> omega
  · rw [set_led_formula s grid seg on_ hg hs]
  · rw [set_led_formula s grid seg on_ hg hs, get_led_formula _ grid seg hg hs]
    simp only [Function.update_same, Prod.mk.injEq, Option.some.injEq, true_and]
    cases on_
    · simp only [Bool.false_eq_true, if_false]
      rw [testBit_clear_bit _ _ _ hbit]
      simp
    · simp only [if_true]
      rw [testBit_set_bit _ _ _ hbit]
      simp
  · intro grid2 seg2 hg2 hs2 hne
    have hbit2 : (seg2 - 1) % 8 < 8 := Nat.mod_lt _ (by decide)
    rw [set_led_formula s grid seg on_ hg hs, get_led_formula _ grid2 seg2 hg2 hs2,
      get_led_formula s grid2 seg2 hg2 hs2]
    simp only [Prod.mk.injEq, Option.some.injEq, true_and]
    by_cases ho : (grid2 - 1) * 2 + (if seg2 - 1 ≥ 8 then 1 else 0) =
        (grid - 1) * 2 + (if seg - 1 ≥ 8 then 1 else 0)
    · have hb : ¬ (seg - 1) % 8 = (seg2 - 1) % 8 := by
        intro hb
        apply hne
        split at ho <;> split at ho <;> omega
      rw [ho, Function.update_same]
      cases on_
      · simp only [Bool.false_eq_true, if_false]
        rw [testBit_clear_bit _ _ _ hbit2]
        simp [hb]
      · simp only [if_true]
        rw [testBit_set_bit _ _ _ hbit2]
        simp [hb]
    · rw [Function.update_noteq ho]

/-- Witness for C14: on the fresh TM1628 (bitmap of 14 bytes), switching on grid 7,
segment 16 addresses byte 13, is read back as on, and grid 7, segment 15 stays off. -/
theorem tm1628_set_led_get_led_witness :
    tm1628_fresh.data_len = tm1628_probe_data_len tm1628_fresh ∧
    (tm1628_set_led tm1628_fresh 7 16 true).2 = 0 ∧
    tm1628_get_led (tm1628_set_led tm1628_fresh 7 16 true).1 7 16 = (0, some true) ∧
    tm1628_get_led (tm1628_set_led tm1628_fresh 7 16 true).1 7 15 =
      tm1628_get_led tm1628_fresh 7 15 := by
  have h := tm1628_set_led_get_led tm1628_fresh 7 16 true (Or.inl rfl) (by decide)
    (by decide) (by decide)
  exact ⟨by decide, h.2.1, h.2.2.1, h.2.2.2 7 15 (by decide) (by decide) (by decide)⟩

/-! ## Claims on the glyph indicators -/

/-- The loop of `glyph_store` passes over slots that hold glyphs of other names. -/
theorem glyph_store_loop_skip (name : String) (enable : Bool) :
    ∀ (n i : Nat) (d : seg7disp_data),
      (∀ j, j < n → ∃ g, d.glyphs (i + j) = some g ∧ g.name ≠ name) →
      glyph_store_loop name enable n i d = some (d, none) := by
  intro n
  induction n with
  | zero => intro i d _; rfl
  | succ n ih =>
    intro i d h
    obtain ⟨g, hg, hn⟩ := h 0 (Nat.succ_pos n)
    rw [Nat.add_zero] at hg
    rw [glyph_store_loop, hg]
    simp only [hn, if_false]
    apply ih
    intro j hj
    have := h (j + 1) (Nat.succ_lt_succ hj)
    rwa [Nat.add_assoc, Nat.add_comm 1 j]

/-- The loop of `glyph_store` dereferences the first `NULL` slot it comes to when no
glyph before it has the name. -/
theorem glyph_store_loop_null (name : String) (enable : Bool) :
    ∀ (n i : Nat) (d : seg7disp_data) (k : Nat), k < n →
      (∀ j, j < k → ∃ g, d.glyphs (i + j) = some g ∧ g.name ≠ name) →
      d.glyphs (i + k) = none →
      glyph_store_loop name enable n i d = none := by
  intro n
  induction n with
  | zero => intro i d k hk; omega
  | succ n ih =>
    intro i d k hk hbefore hnull
    cases k with
    | zero =>
      rw [Nat.add_zero] at hnull
      rw [glyph_store_loop, hnull]
    | succ k =>
      obtain ⟨g, hg, hn⟩ := hbefore 0 (Nat.succ_pos k)
      rw [Nat.add_zero] at hg
      rw [glyph_store_loop, hg]
      simp only [hn, if_false]
      apply ih (i + 1) d k (Nat.lt_of_succ_lt_succ hk)
      · intro j hj
        have := hbefore (j + 1) (Nat.succ_lt_succ hj)
        rwa [Nat.add_assoc, Nat.add_comm 1 j]
      · rwa [Nat.add_assoc, Nat.add_comm 1 k]

/-- The loop of `glyph_store` at the first glyph of the given name, with the lock
acquired: the indicator byte is updated and written, and the loop is left. -/
theorem glyph_store_loop_found (name : String) (enable : Bool) :
    ∀ (n i : Nat) (d : seg7disp_data) (k : Nat) (g : seg7disp_glyph), k < n →
      (∀ j, j < k → ∃ g2, d.glyphs (i + j) = some g2 ∧ g2.name ≠ name) →
      d.glyphs (i + k) = some g → g.name = name →
      ¬ lock_interrupted d.controller 0 →
      glyph_store_loop name enable n i d =
        some ({ d with
          glyphs_state := glyph_state_update d.glyphs_state g.bit enable,
          controller := (fd6551_write d.controller d.glyph_addr
            (glyph_state_update d.glyphs_state g.bit enable)).1 }, none) := by
  intro n
  induction n with
  | zero => intro i d k g hk; omega
  | succ n ih =>
    intro i d k g hk hbefore hat hname hlock
    cases k with
    | zero =>
      rw [Nat.add_zero] at hat
      rw [glyph_store_loop, hat]
      simp only [hname, if_true]
      rw [fd6551_write_acquired d.controller _ _ hlock]
      simp
    | succ k =>
      obtain ⟨g2, hg2, hn⟩ := hbefore 0 (Nat.succ_pos k)
      rw [Nat.add_zero] at hg2
      rw [glyph_store_loop, hg2]
      simp only [hn, if_false]
      apply ih (i + 1) d k g (Nat.lt_of_succ_lt_succ hk)
      · intro j hj
        have := hbefore (j + 1) (Nat.succ_lt_succ hj)
        rwa [Nat.add_assoc, Nat.add_comm 1 j]
      · rwa [Nat.add_assoc, Nat.add_comm 1 k]
      · exact hname
      · exact hlock

/-- Bits of the complement of an `int`. -/
theorem not32_testBit (x j : Nat) :
    (not32 x).testBit j = (decide (j < 32) && !(decide (j < 32) && x.testBit j)) := by
  have hlt : x % 2 ^ 32 < 2 ^ 32 := Nat.mod_lt _ (by decide)
  have hform : not32 x = 2 ^ 32 - (x % 2 ^ 32 + 1) := by unfold not32; omega
  rw [hform, Nat.testBit_two_pow_sub_succ hlt, Nat.testBit_mod_two_pow]

/-- Bits of the indicator byte after a glyph was switched on and off again: the
glyph's bit is clear, the others are as before. -/
theorem glyph_state_on_off_testBit (p b t : Nat) (hp : p < 256) :
    (glyph_state_update (glyph_state_update p b true) b false).testBit t =
      (p.testBit t && !decide (t = b)) := by
  have hhigh : ¬ t < 8 → p.testBit t = false := by
    intro ht
    apply Nat.testBit_lt_two_pow
    calc p < 2 ^ 8 := hp
      _ ≤ 2 ^ t := Nat.pow_le_pow_right (by decide) (by omega)
  simp only [glyph_state_update, if_true, Bool.false_eq_true, if_false, u8,
    Nat.testBit_mod_two_pow, Nat.testBit_and, Nat.testBit_or, one_shl_testBit, not32_testBit]
  by_cases ht : t < 8
  · have ht32 : t < 32 := by omega
    by_cases hb : b = t
    · subst hb; simp [ht, ht32]
    · have hb2 : ¬ t = b := fun h => hb h.symm
      simp [ht, ht32, hb, hb2]
  · simp [ht, hhigh ht]

/-- Switching a glyph on and off again gives back the indicator byte exactly when
the glyph's bit was clear in it. -/
theorem glyph_state_on_off_eq_iff (p b : Nat) (hp : p < 256) :
    glyph_state_update (glyph_state_update p b true) b false = p ↔ p.testBit b = false := by
  constructor
  · intro h
    have hb := glyph_state_on_off_testBit p b b hp
    rw [h] at hb
    cases hpb : p.testBit b
    · rfl
    · rw [hpb] at hb; simp at hb
  · intro h
    apply Nat.eq_of_testBit_eq
    intro t
    rw [glyph_state_on_off_testBit p b t hp]
    by_cases ht : t = b
    · subst ht; simp [h]
    · simp [ht]

/-- Where `glyph_store` and the specification agree and where they part on a name
that no registered glyph has: with `k` glyphs registered in the slots `0..k-1` and
slot `k` empty, the lookup is a no-op returning the length only when all seven slots
are taken; with fewer it reads through the empty slot. -/
theorem glyph_store_unknown_name (d : seg7disp_data) (name : String) (buf : Nat → Int)
    (len k : Nat) (hbuf : buf 0 = 49 ∨ buf 0 = 48) (hk : k ≤ 7)
    (hreg : ∀ j, j < k → ∃ g, d.glyphs j = some g ∧ g.name ≠ name)
    (hnull : k < 7 → d.glyphs k = none) :
    glyph_store d name buf len = (if k < 7 then none else some (d, (len : Int))) := by
  have hreg0 : ∀ j, j < k → ∃ g, d.glyphs (0 + j) = some g ∧ g.name ≠ name := by
    intro j hj; rw [Nat.zero_add]; exact hreg j hj
  by_cases hlt : k < 7
  · have hn : d.glyphs (0 + k) = none := by rw [Nat.zero_add]; exact hnull hlt
    have h1 := glyph_store_loop_null name true 7 0 d k hlt hreg0 hn
    have h0 := glyph_store_loop_null name false 7 0 d k hlt hreg0 hn
    unfold glyph_store
    rw [h1, h0, if_pos hlt]
    rcases hbuf with hb | hb
    · simp [hb]
    · simp [hb]
  · have hk7 : k = 7 := by omega
    subst hk7
    have h1 := glyph_store_loop_skip name true 7 0 d hreg0
    have h0 := glyph_store_loop_skip name false 7 0 d hreg0
    unfold glyph_store
    rw [h1, h0, if_neg hlt]
    rcases hbuf with hb | hb
    · simp [hb]
    · simp [hb]

/-- C12: with the single glyph "wifi" registered, slot 1 of the registry is `NULL`
and `glyph_store` for the name "usb" dereferences it, for input '1' and for '0';
only with all seven slots taken is an unknown name a no-op that returns the length,
writes nothing and leaves the indicator byte alone. -/
theorem glyph_store_unknown_name_null_slot :
    (seg7disp_with_glyphs ["wifi"]).glyphs 0 = some ⟨"wifi", 0⟩ ∧
    (seg7disp_with_glyphs ["wifi"]).glyphs 1 = none ∧
    (glyph_store (seg7disp_with_glyphs ["wifi"]) "usb" buf_1 1).isNone = true ∧
    (glyph_store (seg7disp_with_glyphs ["wifi"]) "usb" buf_0 1).isNone = true ∧
    (glyph_store (seg7disp_with_glyphs []) "usb" buf_1 1).isNone = true ∧
    (glyph_store (seg7disp_with_glyphs ["a", "b", "c", "d", "e", "f", "g"]) "usb"
        buf_1 1).map (fun r => (r.2, r.1.glyphs_state, r.1.controller.sent)) =
      some (1, 0, []) := by
  refine ⟨by decide, by decide, by decide, by decide, by decide, by decide⟩

/-- One call of `glyph_store` for a registered name with the lock acquired: the
length is returned, the registry is untouched, the indicator byte is updated and
sent, and one lock acquisition is used up. -/
theorem glyph_store_found (d : seg7disp_data) (name : String) (buf : Nat → Int)
    (len k : Nat) (g : seg7disp_glyph) (enable : Bool)
    (hbuf : buf 0 = (if enable then 49 else 48)) (hk : k < 7)
    (hbefore : ∀ j, j < k → ∃ g2, d.glyphs j = some g2 ∧ g2.name ≠ name)
    (hat : d.glyphs k = some g) (hname : g.name = name)
    (hlock : ¬ lock_interrupted d.controller 0) :
    ∃ d1, glyph_store d name buf len = some (d1, (len : Int)) ∧
      d1.glyphs = d.glyphs ∧
      d1.glyphs_state = glyph_state_update d.glyphs_state g.bit enable ∧
      (∀ j, lock_interrupted d1.controller j ↔ lock_interrupted d.controller (j + 1)) ∧
      d1.controller.sent = d.controller.sent ++
        [⟨u8 d.glyph_addr, [u8 (glyph_state_update d.glyphs_state g.bit enable)],
          I2C_M_IGNORE_NAK⟩] := by
  have hbefore0 : ∀ j, j < k → ∃ g2, d.glyphs (0 + j) = some g2 ∧ g2.name ≠ name := by
    intro j hj; rw [Nat.zero_add]; exact hbefore j hj
  have hat0 : d.glyphs (0 + k) = some g := by rw [Nat.zero_add]; exact hat
  have h1 := glyph_store_loop_found name enable 7 0 d k g hk hbefore0 hat0 hname hlock
  have hw := fd6551_write_acquired d.controller d.glyph_addr
    (glyph_state_update d.glyphs_state g.bit enable) hlock
  refine ⟨{ d with
      glyphs_state := glyph_state_update d.glyphs_state g.bit enable,
      controller := (fd6551_write d.controller d.glyph_addr
        (glyph_state_update d.glyphs_state g.bit enable)).1 }, ?_, rfl, rfl, ?_, ?_⟩
  · unfold glyph_store
    cases enable
    · have hb0 : buf 0 = 48 := by simpa using hbuf
      have hne : ¬ buf 0 = 49 := by rw [hb0]; decide
      rw [if_neg hne, if_pos hb0, h1]
    · have hb1 : buf 0 = 49 := by simpa using hbuf
      rw [if_pos hb1, h1]
  · intro j
    simp only [hw]
    unfold lock_interrupted
    simp only [Nat.add_assoc, Nat.add_comm 1 j]
  · simp only [hw]

/-- C11 (as the code has it): for a registered glyph name, `glyph_store` with '1' and
then with '0', both bus writes going through, leaves the indicator byte equal to its
prior value with that glyph's bit cleared; the prior value comes back exactly when
the bit was clear in it. -/
theorem glyph_store_on_then_off (d : seg7disp_data) (name : String) (buf1 buf0 : Nat → Int)
    (len k : Nat) (g : seg7disp_glyph)
    (hb1 : buf1 0 = 49) (hb0 : buf0 0 = 48) (hk : k < 7)
    (hbefore : ∀ j, j < k → ∃ g2, d.glyphs j = some g2 ∧ g2.name ≠ name)
    (hat : d.glyphs k = some g) (hname : g.name = name)
    (hstate : d.glyphs_state < 256)
    (hl0 : ¬ lock_interrupted d.controller 0) (hl1 : ¬ lock_interrupted d.controller 1) :
    ∃ d1 d2, glyph_store d name buf1 len = some (d1, (len : Int)) ∧
      glyph_store d1 name buf0 len = some (d2, (len : Int)) ∧
      d1.glyphs_state = u8 (d.glyphs_state ||| 1 <<< g.bit) ∧
      (∀ t, d2.glyphs_state.testBit t = (d.glyphs_state.testBit t && !decide (t = g.bit))) ∧
      (d2.glyphs_state = d.glyphs_state ↔ d.glyphs_state.testBit g.bit = false) := by
  obtain ⟨d1, hr1, hg1, hs1, hlk1, _⟩ :=
    glyph_store_found d name buf1 len k g true (by simpa using hb1) hk hbefore hat hname hl0
  have hbefore1 : ∀ j, j < k → ∃ g2, d1.glyphs j = some g2 ∧ g2.name ≠ name := by
    rw [hg1]; exact hbefore
  have hat1 : d1.glyphs k = some g := by rw [hg1]; exact hat
  have hl1' : ¬ lock_interrupted d1.controller 0 := fun h => hl1 ((hlk1 0).1 h)
  obtain ⟨d2, hr2, _, hs2, _, _⟩ :=
    glyph_store_found d1 name buf0 len k g false (by simpa using hb0) hk hbefore1 hat1 hname
      hl1'
  refine ⟨d1, d2, hr1, hr2, ?_, ?_, ?_⟩
  · rw [hs1]; simp [glyph_state_update]
  · intro t
    rw [hs2, hs1]
    exact glyph_state_on_off_testBit d.glyphs_state g.bit t hstate
  · rw [hs2, hs1]
    exact glyph_state_on_off_eq_iff d.glyphs_state g.bit hstate

/-- Witness for C11: on the display with the glyph "wifi" registered and a dark
indicator byte, '1' then '0' gives the byte 0 back. -/
theorem glyph_store_on_then_off_witness :
    ∃ d1 d2, glyph_store (seg7disp_with_glyphs ["wifi"]) "wifi" buf_1 1 = some (d1, 1) ∧
      glyph_store d1 "wifi" buf_0 1 = some (d2, 1) ∧
      d1.glyphs_state = 1 ∧ d2.glyphs_state = 0 := by
  obtain ⟨d1, d2, h1, h2, h3, _, h5⟩ :=
    glyph_store_on_then_off (seg7disp_with_glyphs ["wifi"]) "wifi" buf_1 buf_0 1 0
      ⟨"wifi", 0⟩ (by decide) (by decide) (by decide) (by decide) (by decide) (by decide)
      (by decide) (by decide) (by decide)
  exact ⟨d1, d2, h1, h2, h3, h5.2 (by decide)⟩

/-- Counterexample to C11 as stated: with the indicator byte at 0x01 and the glyph
"wifi" on bit 0, '1' then '0' (both writes going through) leaves the byte at 0x00. -/
theorem glyph_store_on_then_off_clears_lit_bit :
    seg7disp_wifi_lit.glyphs_state = 0x01 ∧
    ((glyph_store seg7disp_wifi_lit "wifi" buf_1 1).bind
        (fun r => glyph_store r.1 "wifi" buf_0 1)).map
      (fun r => (r.2, r.1.glyphs_state, r.1.controller.sent)) =
      some (1, 0x00, [⟨0, [0x01], I2C_M_IGNORE_NAK⟩, ⟨0, [0x00], I2C_M_IGNORE_NAK⟩]) := by
  refine ⟨by decide, by decide⟩

end LedDrv
